import Mathlib

/-!
# Verification of the PokemonBattle engine (`a2.py`, `a2_support.py`)

A shallow embedding of the battle engine.  Python objects become Lean
structures; in-place mutation becomes explicit state passing; Python
`dict`s (which iterate in insertion order and key on object identity)
become association lists whose keys carry an identity tag; exceptions
(`NoPokemonException`, `IndexError`) become an `Except` monad; the two
external primitives with no exact Lean counterpart — the random roll
`did_succeed` and the floating-point cube root `experience ** (1.0/3)`
inside `gain_experience` — are injected as parameters of an `Env`
record, exactly as the spec demands the randomness boundary be
injectable.  Numeric values that Python stores as `int`/`float` are
modelled as `ℤ`/`ℚ`; `int(x)` (truncation toward zero) is `pyInt`.
-/

set_option autoImplicit false

namespace PokeBattle

/-- Python `int(q)`: truncation toward zero of a rational. -/
def pyInt (q : ℚ) : ℤ := if q < 0 then -(Int.floor (-q)) else Int.floor q

/-- Errors a Python run of the engine can raise: `NoPokemonException`
(from `Trainer.get_current_pokemon`) and `IndexError` (from list
indexing with an out-of-range index). -/
inductive PyErr where
  | noPokemonException
  | indexError
deriving DecidableEq, Repr

/-- Resolve a Python list index (negative indices count from the end)
to a plain list position; `none` when the index is out of range. -/
def pyResolve (n : ℕ) (i : ℤ) : Option ℕ :=
  if 0 ≤ i ∧ i < (n : ℤ) then some i.toNat
  else if -(n : ℤ) ≤ i ∧ i < 0 then some (i + n).toNat
  else none

/-- Python `l[i]` on a list, with negative-index semantics. -/
def pyGet {α : Type} (l : List α) (i : ℤ) : Option α :=
  (pyResolve l.length i).bind l.get?

/-- Association-list lookup (first match), modelling Python `dict`
access; keys are compared with decidable equality. -/
def assocLookup {κ β : Type} [DecidableEq κ] : List (κ × β) → κ → Option β
  | [], _ => none
  | kv :: rest, k => if kv.1 = k then some kv.2 else assocLookup rest k

/-- Association-list store, modelling Python `dict.__setitem__`:
replace the binding if the key is present (keeping its position,
as an insertion-ordered dict does), else append it. -/
def assocUpdate {κ β : Type} [DecidableEq κ] : List (κ × β) → κ → β → List (κ × β)
  | [], k, v => [(k, v)]
  | kv :: rest, k, v =>
      if kv.1 = k then (k, v) :: rest else kv :: assocUpdate rest k v

/-- Association-list removal of the first binding of a key, modelling
Python `dict.pop`. -/
def assocErase {κ β : Type} [DecidableEq κ] : List (κ × β) → κ → List (κ × β)
  | [], _ => []
  | kv :: rest, k => if kv.1 = k then rest else kv :: assocErase rest k

/- ## a2_support.py constants -/

def DEFAULT_ACTION_PRIORITY : ℤ := 0
def SPEED_BASED_ACTION_PRIORITY : ℤ := 1
def MAXIMUM_MOVE_SLOTS : ℕ := 4
def MAXIMUM_POKEMON_ROSTER : ℕ := 6

def POKEBALL_INVALID_BATTLE_TYPE : String :=
  "Pokeballs have no effect in trainer battles."
def POKEBALL_UNSUCCESSFUL_CATCH (name : String) : String :=
  "It was so close, but " ++ name ++ " escaped!"
def POKEBALL_SUCCESSFUL_CATCH (name : String) : String :=
  name ++ " was caught!"
def POKEBALL_FULL_TEAM (name : String) : String :=
  name ++ " was caught, but there was no more room."
def FLEE_SUCCESS : String := "Got away safely!"
def FLEE_INVALID : String := "Unable to escape a trainer battle."

/- ## PokemonStats -/

/-- `PokemonStats`: the 4-field stats record
`(hit_chance, max_health, attack, defense)`.  Fields are `ℚ` because
Python mixes `int` and `float` stats freely. -/
structure PokemonStats where
  hit_chance : ℚ
  max_health : ℚ
  attack : ℚ
  defense : ℚ
deriving DecidableEq, Repr

/-- `PokemonStats.level_up`: every stat grows by 5% rounded down
(`int(stat * 1.05)`), then hit chance is reset to 1. -/
def PokemonStats.level_up (s : PokemonStats) : PokemonStats :=
  { hit_chance := 1
    max_health := (pyInt (s.max_health * (21 / 20 : ℚ)) : ℚ)
    attack := (pyInt (s.attack * (21 / 20 : ℚ)) : ℚ)
    defense := (pyInt (s.defense * (21 / 20 : ℚ)) : ℚ) }

/-- `PokemonStats.apply_modifier`: elementwise sum, each field clamped
below by 0; returns a new value. -/
def PokemonStats.apply_modifier (s m : PokemonStats) : PokemonStats :=
  { hit_chance := max 0 (s.hit_chance + m.hit_chance)
    max_health := max 0 (s.max_health + m.max_health)
    attack := max 0 (s.attack + m.attack)
    defense := max 0 (s.defense + m.defense) }

/- ## Moves (data shared by Attack / Buff / Debuff) -/

/-- The fields of `Move.__init__` plus an identity tag `mid` standing
for the Python object identity (moves are dict keys compared by
identity). -/
structure MoveCore where
  mid : ℕ
  name : String
  element_type : String
  max_uses : ℤ
  speed : ℤ
deriving DecidableEq, Repr

/-- The concrete `Move` subclasses and their extra constructor data. -/
inductive MoveKind where
  | attack (base_damage : ℚ) (hit_chance : ℚ)
  | buff (modification : PokemonStats) (rounds : ℤ)
  | debuff (modification : PokemonStats) (rounds : ℤ)
deriving DecidableEq, Repr

structure Move where
  core : MoveCore
  kind : MoveKind
deriving DecidableEq, Repr

/-- `Move.get_priority`: speed-based priority
(`SPEED_BASED_ACTION_PRIORITY + speed`). -/
def Move.get_priority (m : Move) : ℤ :=
  SPEED_BASED_ACTION_PRIORITY + m.core.speed

/- ## Pokemon -/

/-- `Pokemon`: combatant state.  `pid` models object identity
(`can_add_pokemon` uses `in`, i.e. identity, to reject duplicates). -/
structure Pokemon where
  pid : ℕ
  name : String
  element_type : String
  stats : PokemonStats
  stat_modifiers : List (PokemonStats × ℤ)
  health : ℚ
  level : ℤ
  experience : ℤ
  moves : List (Move × ℤ)
deriving DecidableEq, Repr

/-- `Pokemon.get_stats`: base stats with every active modifier folded
on in stored order. -/
def Pokemon.get_stats (p : Pokemon) : PokemonStats :=
  p.stat_modifiers.foldl (fun acc mr => acc.apply_modifier mr.1) p.stats

/-- `Pokemon.get_max_health`: the *base* max health (before
modifiers). -/
def Pokemon.get_max_health (p : Pokemon) : ℚ := p.stats.max_health

/-- `Pokemon.has_fainted`: health is exactly 0. -/
def Pokemon.has_fainted (p : Pokemon) : Bool := decide (p.health = 0)

/-- `Pokemon.modify_health`: add `change` and clamp into
`[0, effective max health]`. -/
def Pokemon.modify_health (p : Pokemon) (change : ℚ) : Pokemon :=
  { p with health := max 0 (min (p.health + change) p.get_stats.max_health) }

/-- `Pokemon.get_remaining_move_uses`: remaining uses, 0 if the move
is not known. -/
def Pokemon.get_remaining_move_uses (p : Pokemon) (m : Move) : ℤ :=
  (assocLookup p.moves m).getD 0

/-- `Pokemon.can_learn_move`: fewer than `MAXIMUM_MOVE_SLOTS` moves
known and the move not already known. -/
def Pokemon.can_learn_move (p : Pokemon) (m : Move) : Bool :=
  if MAXIMUM_MOVE_SLOTS ≤ p.moves.length then false
  else (assocLookup p.moves m).isNone

/-- `Pokemon.learn_move`: store the move with its maximum uses. -/
def Pokemon.learn_move (p : Pokemon) (m : Move) : Pokemon :=
  { p with moves := assocUpdate p.moves m m.core.max_uses }

/-- `Pokemon.forget_move`: drop the move if known. -/
def Pokemon.forget_move (p : Pokemon) (m : Move) : Pokemon :=
  if (assocLookup p.moves m).isSome then
    { p with moves := assocErase p.moves m }
  else p

/-- `Pokemon.reduce_move_count`: decrement remaining uses (floored at
0) if the move is known. -/
def Pokemon.reduce_move_count (p : Pokemon) (m : Move) : Pokemon :=
  match assocLookup p.moves m with
  | none => p
  | some uses => { p with moves := assocUpdate p.moves m (max 0 (uses - 1)) }

/-- `Pokemon.add_stat_modifier`: append a timed modifier, then
re-clamp health (`modify_health(0)`). -/
def Pokemon.add_stat_modifier (p : Pokemon) (modifier : PokemonStats)
    (rounds : ℤ) : Pokemon :=
  ({ p with stat_modifiers := p.stat_modifiers ++ [(modifier, rounds)] }
    ).modify_health 0

/-- The accumulation loop inside `Pokemon.post_round_actions`: keep an
entry iff its remaining rounds exceed 1, decrementing it. -/
def tickLoop : List (PokemonStats × ℤ) → List (PokemonStats × ℤ)
  | [] => []
  | mr :: rest => if 1 < mr.2 then (mr.1, mr.2 - 1) :: tickLoop rest
                  else tickLoop rest

/-- `Pokemon.post_round_actions`: run the modifier-expiry loop, then
re-clamp health. -/
def Pokemon.post_round_actions (p : Pokemon) : Pokemon :=
  ({ p with stat_modifiers := tickLoop p.stat_modifiers }).modify_health 0

/-- Iterate a state update `n` times (Python `for _ in range(n)`). -/
def iterateN {α : Type} (f : α → α) : ℕ → α → α
  | 0, a => a
  | n + 1, a => iterateN f n (f a)

/-- `Pokemon.level_up`: bump the level, grow base stats, and raise
current health by the base-max-health increase. -/
def Pokemon.level_up (p : Pokemon) : Pokemon :=
  let p1 : Pokemon := { p with level := p.level + 1 }
  let old_max_hp := p1.get_max_health
  let p2 : Pokemon := { p1 with stats := p1.stats.level_up }
  p2.modify_health (p2.get_max_health - old_max_hp)

/-- `Pokemon.gain_experience`: add the amount, then level up once per
whole level crossed by `int(experience ** (1.0/3))`.  The
floating-point cube root is injected as `cbrtI` (see `Env`). -/
def Pokemon.gain_experience (cbrtI : ℤ → ℤ) (p : Pokemon)
    (experience : ℤ) : Pokemon :=
  let p1 : Pokemon := { p with experience := p.experience + experience }
  let start_level := p1.level
  let end_level := cbrtI p1.experience
  iterateN Pokemon.level_up (end_level - start_level).toNat p1

/-- `Pokemon.experience_on_death`: `int(200 * level / 7)`. -/
def Pokemon.experience_on_death (p : Pokemon) : ℤ :=
  pyInt ((200 * p.level : ℤ) / (7 : ℚ))

/-- `Pokemon.__init__`: health starts at base max health, experience
at `level ** 3`, and the supplied moves are learned in order, each one
only when `can_learn_move` holds at that moment. -/
def mkPokemon (pid : ℕ) (name : String) (stats : PokemonStats)
    (element_type : String) (moves : List Move) (level : ℤ) : Pokemon :=
  moves.foldl
    (fun p m => if p.can_learn_move m then p.learn_move m else p)
    { pid := pid, name := name, element_type := element_type
      stats := stats, stat_modifiers := []
      health := stats.max_health, level := level
      experience := level ^ 3, moves := [] }

/- ## Items and Trainer -/

/-- The concrete `Item` subclasses (`Pokeball`, `Food`); `iid` models
Python object identity (items are inventory dict keys). -/
inductive Item where
  | pokeball (iid : ℕ) (name : String) (catch_chance : ℚ)
  | food (iid : ℕ) (name : String) (health_restored : ℚ)
deriving DecidableEq, Repr

/-- `Trainer`: roster (insertion order), the index of the selected
pokemon (`None` until one is set), and the item inventory. -/
structure Trainer where
  name : String
  selected_pokemon : Option ℤ
  pokemon : List Pokemon
  inventory : List (Item × ℤ)
deriving DecidableEq, Repr

/-- `Trainer.get_current_pokemon`: raises `NoPokemonException` when no
selection was ever made, `IndexError` when the stored index is out of
the roster's (Python) bounds. -/
def Trainer.get_current_pokemon (t : Trainer) : Except PyErr Pokemon :=
  match t.selected_pokemon with
  | none => .error .noPokemonException
  | some i =>
    match pyGet t.pokemon i with
    | some p => .ok p
    | none => .error .indexError

/-- Update the currently selected pokemon in place (models Python
mutating the object returned by `get_current_pokemon`, which is
aliased inside the roster list). -/
def Trainer.with_current (t : Trainer) (f : Pokemon → Pokemon) :
    Except PyErr Trainer :=
  match t.selected_pokemon with
  | none => .error .noPokemonException
  | some i =>
    match pyResolve t.pokemon.length i with
    | none => .error .indexError
    | some k =>
      match t.pokemon.get? k with
      | none => .error .indexError
      | some p => .ok { t with pokemon := t.pokemon.set k (f p) }

/-- `Trainer.all_pokemon_fainted`. -/
def Trainer.all_pokemon_fainted (t : Trainer) : Bool :=
  t.pokemon.all Pokemon.has_fainted

/-- `Trainer.can_add_pokemon`: rejects a pokemon already present (by
identity) or a full roster of `MAXIMUM_POKEMON_ROSTER`. -/
def Trainer.can_add_pokemon (t : Trainer) (p : Pokemon) : Bool :=
  if t.pokemon.contains p then false
  else decide (t.pokemon.length < MAXIMUM_POKEMON_ROSTER)

/-- `Trainer.add_pokemon`: append; the first pokemon ever added
becomes the selection. -/
def Trainer.add_pokemon (t : Trainer) (p : Pokemon) : Trainer :=
  let t1 : Trainer := { t with pokemon := t.pokemon ++ [p] }
  match t1.selected_pokemon with
  | none => { t1 with selected_pokemon := some 0 }
  | some _ => t1

/-- `Trainer.can_switch_pokemon`: index in `[0, len)`, different from
the current selection, and the target not fainted. -/
def Trainer.can_switch_pokemon (t : Trainer) (i : ℤ) : Bool :=
  if i < 0 || decide ((t.pokemon.length : ℤ) ≤ i) then false
  else if t.selected_pokemon == some i then false
  else match t.pokemon.get? i.toNat with
       | some p => !p.has_fainted
       | none => false

/-- `Trainer.switch_pokemon`: sets the selection index with no
validation of its own. -/
def Trainer.switch_pokemon (t : Trainer) (i : ℤ) : Trainer :=
  { t with selected_pokemon := some i }

/-- `Trainer.add_item`: add `uses` to the item's count (starting from
0 if absent). -/
def Trainer.add_item (t : Trainer) (i : Item) (uses : ℤ) : Trainer :=
  { t with inventory :=
      assocUpdate t.inventory i ((assocLookup t.inventory i).getD 0 + uses) }

/-- `Trainer.has_item`: the item is a key of the inventory. -/
def Trainer.has_item (t : Trainer) (i : Item) : Bool :=
  (assocLookup t.inventory i).isSome

/-- `Trainer.use_item`: decrement the count if present; remove the
key when the count hits 0. -/
def Trainer.use_item (t : Trainer) (i : Item) : Trainer :=
  match assocLookup t.inventory i with
  | none => t
  | some count =>
    if count - 1 = 0 then { t with inventory := assocErase t.inventory i }
    else { t with inventory := assocUpdate t.inventory i (count - 1) }

/- ## Actions and the Battle state machine -/

/-- The closed set of concrete `Action` subclasses. -/
inductive Action where
  | flee
  | switch_pokemon (idx : ℤ)
  | item (i : Item)
  | move (m : Move)
deriving DecidableEq, Repr

/-- `get_priority`: the default priority for `Flee`, `SwitchPokemon`
and items; speed-based priority for moves. -/
def Action.get_priority : Action → ℤ
  | .move m => m.get_priority
  | _ => DEFAULT_ACTION_PRIORITY

/-- `Battle`: the two trainers, the duel flag, the early-termination
flag, the tri-valued turn, and the pending action queue. -/
structure Battle where
  player : Trainer
  enemy : Trainer
  trainer_battle : Bool
  finished_early : Bool
  turn : Option Bool
  action_queue : List (Action × Bool)
deriving DecidableEq, Repr

/-- `Battle.__init__`. -/
def mkBattle (player enemy : Trainer) (is_trainer_battle : Bool) : Battle :=
  { player := player, enemy := enemy, trainer_battle := is_trainer_battle
    finished_early := false, turn := none, action_queue := [] }

def Battle.get_trainer (b : Battle) (is_player : Bool) : Trainer :=
  if is_player then b.player else b.enemy

/-- Write back a (mutated) trainer, modelling Python's aliasing of the
object returned by `get_trainer`. -/
def Battle.set_trainer (b : Battle) (is_player : Bool) (t : Trainer) : Battle :=
  if is_player then { b with player := t } else { b with enemy := t }

/-- `Battle.attempt_end_early`: sets the early flag iff this is not a
trainer battle. -/
def Battle.attempt_end_early (b : Battle) : Battle :=
  if !b.trainer_battle then { b with finished_early := true } else b

def Battle.is_trainer_battle (b : Battle) : Bool := b.trainer_battle

def Battle.is_action_queue_full (b : Battle) : Bool :=
  b.action_queue.length == 2

def Battle.is_action_queue_empty (b : Battle) : Bool :=
  b.action_queue.length == 0

def Battle.trainer_has_action_queued (b : Battle) (is_player : Bool) : Bool :=
  b.action_queue.any (fun ap => ap.2 == is_player)

/-- `Battle.is_ready`: with no turn set, ready iff the queue is full;
with the turn pointing at a side, ready iff that side is queued. -/
def Battle.is_ready (b : Battle) : Bool :=
  match b.turn with
  | none => b.is_action_queue_full
  | some t => b.trainer_has_action_queued t

/-- `Battle._update_turn`: from no-turn to the opposite side; from a
set turn back to no-turn (round complete). -/
def Battle.update_turn (b : Battle) (is_player : Bool) : Battle :=
  match b.turn with
  | none => { b with turn := some (!is_player) }
  | some _ => { b with turn := none }

/-- `Battle.is_over`: ended early, or either roster fully fainted. -/
def Battle.is_over (b : Battle) : Bool :=
  b.finished_early || b.player.all_pokemon_fainted
    || b.enemy.all_pokemon_fainted

/-- The base `Action.is_valid`: false when the battle is over or when
the turn points at the other side. -/
def Battle.base_action_valid (b : Battle) (is_player : Bool) : Bool :=
  if b.is_over then false
  else match b.turn with
       | none => true
       | some t => t == is_player

/-- The injected external primitives: `roll c` is the outcome of
`did_succeed(c)`, `eff` is the `ElementType` registry state
(`get_effectiveness`, defaulting to 1 for unregistered pairs), and
`cbrtI e` is the value of the Python float expression
`int(e ** (1.0/3))`. -/
structure Env where
  roll : ℚ → Bool
  eff : String → String → ℚ
  cbrtI : ℤ → ℤ

/-- `is_valid` of each concrete action (dispatch over the subclass
overrides, each calling the base check first exactly as the source
does; `Flee.is_valid` fetches the current pokemon before the base
check, so it can raise even when the base check would fail). -/
def Action.is_valid (a : Action) (b : Battle) (is_player : Bool) :
    Except PyErr Bool :=
  match a with
  | .flee =>
    match (b.get_trainer is_player).get_current_pokemon with
    | .error e => .error e
    | .ok pk => .ok (b.base_action_valid is_player && !pk.has_fainted)
  | .switch_pokemon idx =>
    if !b.base_action_valid is_player then .ok false
    else .ok ((b.get_trainer is_player).can_switch_pokemon idx)
  | .item it =>
    if !b.base_action_valid is_player then .ok false
    else
      match (b.get_trainer is_player).get_current_pokemon with
      | .error e => .error e
      | .ok pk =>
        .ok (!pk.has_fainted && (b.get_trainer is_player).has_item it)
  | .move m =>
    if !b.base_action_valid is_player then .ok false
    else
      match (b.get_trainer is_player).get_current_pokemon with
      | .error e => .error e
      | .ok pk =>
        if pk.has_fainted then .ok false
        else .ok (decide (pk.get_remaining_move_uses m ≠ 0))


/- ## Applying actions -/

/-- `Flee.apply`: always attempts the early end; the message depends
on whether this is a trainer battle. -/
def applyFlee (b : Battle) : List String × Battle :=
  let b1 := b.attempt_end_early
  let message := if b1.is_trainer_battle then FLEE_INVALID else FLEE_SUCCESS
  ([message], b1)

/-- `SwitchPokemon.apply`: read the outgoing and incoming pokemon
(the latter with a raw list index, which can raise `IndexError`),
switch, and emit the return/switched messages. -/
def applySwitch (b : Battle) (is_player : Bool) (idx : ℤ) :
    Except PyErr (List String × Battle) :=
  match (b.get_trainer is_player).get_current_pokemon with
  | .error e => .error e
  | .ok pk =>
    match pyGet (b.get_trainer is_player).pokemon idx with
    | none => .error .indexError
    | some next_pokemon =>
      .ok ((if is_player && !pk.has_fainted
            then [pk.name ++ ", return!"] else [])
             ++ [(b.get_trainer is_player).name ++ " switched to "
                  ++ next_pokemon.name ++ "."],
           b.set_trainer is_player
             ((b.get_trainer is_player).switch_pokemon idx))

/-- `Pokeball.apply`: consume one use first; in a trainer battle stop
with the no-effect message; otherwise roll the catch chance, and on
success add the enemy pokemon when there is room — calling
`attempt_end_early` on *both* success sub-cases. -/
def applyPokeball (env : Env) (b : Battle) (is_player : Bool)
    (ball : Item) (catch_chance : ℚ) : Except PyErr (List String × Battle) :=
  if (b.set_trainer is_player
      ((b.get_trainer is_player).use_item ball)).is_trainer_battle then
    .ok ([POKEBALL_INVALID_BATTLE_TYPE],
         b.set_trainer is_player ((b.get_trainer is_player).use_item ball))
  else
    match ((b.set_trainer is_player
        ((b.get_trainer is_player).use_item ball)).get_trainer
        (!is_player)).get_current_pokemon with
    | .error e => .error e
    | .ok enemy_pokemon =>
      if !env.roll catch_chance then
        .ok ([POKEBALL_UNSUCCESSFUL_CATCH enemy_pokemon.name],
             b.set_trainer is_player ((b.get_trainer is_player).use_item ball))
      else
        if ((b.set_trainer is_player
            ((b.get_trainer is_player).use_item ball)).get_trainer
            is_player).can_add_pokemon enemy_pokemon then
          .ok ([POKEBALL_SUCCESSFUL_CATCH enemy_pokemon.name],
               ((b.set_trainer is_player
                   ((b.get_trainer is_player).use_item ball)).set_trainer
                 is_player
                 (((b.set_trainer is_player
                     ((b.get_trainer is_player).use_item ball)).get_trainer
                   is_player).add_pokemon enemy_pokemon)).attempt_end_early)
        else
          .ok ([POKEBALL_FULL_TEAM enemy_pokemon.name],
               (b.set_trainer is_player
                 ((b.get_trainer is_player).use_item ball)).attempt_end_early)

/-- `Food.apply`: heal the current pokemon, consume one use, emit the
consumption message. -/
def applyFood (b : Battle) (is_player : Bool) (food : Item)
    (health_restored : ℚ) : Except PyErr (List String × Battle) :=
  match (b.get_trainer is_player).get_current_pokemon with
  | .error e => .error e
  | .ok pk =>
    match (b.get_trainer is_player).with_current
        (fun q => q.modify_health health_restored) with
    | .error e => .error e
    | .ok t1 =>
      .ok ([pk.name ++ " ate "
              ++ (match food with
                  | .food _ n _ => n
                  | .pokeball _ n _ => n) ++ "."],
           b.set_trainer is_player (t1.use_item food))

/-- `Attack.apply_enemy_effects`: roll the combined hit chance; on a
hit deal `int(d * e * a / (D + 1))` damage, and when the defender
faints grant `experience_on_death` to the attacker with the fainted
and experience messages. -/
def applyAttackEnemyEffects (env : Env) (b : Battle) (is_player : Bool)
    (m : Move) (base_damage hit_chance : ℚ) :
    Except PyErr (List String × Battle) :=
  match (b.get_trainer is_player).get_current_pokemon with
  | .error e => .error e
  | .ok player_pokemon =>
    match (b.get_trainer (!is_player)).get_current_pokemon with
    | .error e => .error e
    | .ok enemy_pokemon =>
      if !env.roll (player_pokemon.get_stats.hit_chance * hit_chance) then
        .ok ([player_pokemon.name ++ " missed!"], b)
      else
        match (b.get_trainer (!is_player)).with_current
            (fun q => q.modify_health
              (-(pyInt (base_damage
                  * env.eff m.core.element_type enemy_pokemon.element_type
                  * player_pokemon.get_stats.attack
                  / (enemy_pokemon.get_stats.defense + 1)) : ℚ))) with
        | .error e => .error e
        | .ok enemyT =>
          match ((b.set_trainer (!is_player) enemyT).get_trainer
              (!is_player)).get_current_pokemon with
          | .error e => .error e
          | .ok enemy2 =>
            if enemy2.has_fainted then
              match ((b.set_trainer (!is_player) enemyT).get_trainer
                  is_player).with_current
                  (fun q => q.gain_experience env.cbrtI
                    enemy2.experience_on_death) with
              | .error e => .error e
              | .ok playerT =>
                .ok ([enemy2.name ++ " has fainted.",
                      player_pokemon.name ++ " gained "
                        ++ toString enemy2.experience_on_death ++ " exp."],
                     (b.set_trainer (!is_player) enemyT).set_trainer
                       is_player playerT)
            else .ok ([], b.set_trainer (!is_player) enemyT)

/-- `Buff.apply_ally_effects`: timed modifier on the acting side's
current pokemon, with the buff message. -/
def applyBuffAllyEffects (b : Battle) (is_player : Bool)
    (modification : PokemonStats) (rounds : ℤ) :
    Except PyErr (List String × Battle) :=
  match (b.get_trainer is_player).get_current_pokemon with
  | .error e => .error e
  | .ok pk =>
    match (b.get_trainer is_player).with_current
        (fun q => q.add_stat_modifier modification rounds) with
    | .error e => .error e
    | .ok t1 =>
      .ok ([pk.name ++ " was buffed for " ++ toString rounds ++ " turns."],
           b.set_trainer is_player t1)

/-- `Debuff.apply_enemy_effects`: timed modifier on the *opposing*
side's current pokemon, with the debuff message. -/
def applyDebuffEnemyEffects (b : Battle) (is_player : Bool)
    (modification : PokemonStats) (rounds : ℤ) :
    Except PyErr (List String × Battle) :=
  match (b.get_trainer (!is_player)).get_current_pokemon with
  | .error e => .error e
  | .ok pk =>
    match (b.get_trainer (!is_player)).with_current
        (fun q => q.add_stat_modifier modification rounds) with
    | .error e => .error e
    | .ok t1 =>
      .ok ([pk.name ++ " was debuffed for " ++ toString rounds ++ " turns."],
           b.set_trainer (!is_player) t1)

/-- `Move.apply`: the "used" message, then ally effects, then enemy
effects (per subclass), then decrement the move's remaining uses on
the acting side's (possibly updated) current pokemon. -/
def applyMove (env : Env) (b : Battle) (is_player : Bool) (m : Move) :
    Except PyErr (List String × Battle) :=
  match (b.get_trainer is_player).get_current_pokemon with
  | .error e => .error e
  | .ok pk =>
    match (match m.kind with
           | .buff modification rounds =>
               applyBuffAllyEffects b is_player modification rounds
           | _ => .ok ([], b)) with
    | .error e => .error e
    | .ok (allyMsgs, b1) =>
      match (match m.kind with
             | .attack base_damage hit_chance =>
                 applyAttackEnemyEffects env b1 is_player m base_damage
                   hit_chance
             | .debuff modification rounds =>
                 applyDebuffEnemyEffects b1 is_player modification rounds
             | .buff _ _ => .ok ([], b1)) with
      | .error e => .error e
      | .ok (enemyMsgs, b2) =>
        match (b2.get_trainer is_player).with_current
            (fun q => q.reduce_move_count m) with
        | .error e => .error e
        | .ok t3 =>
          .ok ((pk.name ++ " used " ++ m.core.name ++ ".")
                 :: (allyMsgs ++ enemyMsgs),
               b2.set_trainer is_player t3)

/-- `apply` of each concrete action. -/
def Action.apply (a : Action) (env : Env) (b : Battle) (is_player : Bool) :
    Except PyErr (List String × Battle) :=
  match a with
  | .flee => .ok (applyFlee b)
  | .switch_pokemon idx => applySwitch b is_player idx
  | .item (.pokeball iid nm c) =>
      applyPokeball env b is_player (.pokeball iid nm c) c
  | .item (.food iid nm h) => applyFood b is_player (.food iid nm h) h
  | .move m => applyMove env b is_player m

/- ## The queue / turn protocol -/

/-- `Battle.queue_action`: silently rejected when the side is already
queued, the battle is ready, or the action is invalid; otherwise
appended.  (The first two checks short-circuit before `is_valid` runs,
exactly as the Python `or` does.) -/
def Battle.queue_action (b : Battle) (a : Action)
    (is_player : Bool) : Except PyErr Battle :=
  if b.trainer_has_action_queued is_player || b.is_ready then .ok b
  else
    match a.is_valid b is_player with
    | .error e => .error e
    | .ok false => .ok b
    | .ok true => .ok { b with action_queue := b.action_queue ++ [(a, is_player)] }

/-- Python's stable ascending sort by `get_priority`, restricted to
the only shape it is ever run on (a 2-element queue): swap iff the
second entry has strictly lower priority. -/
def sortPair : List (Action × Bool) → List (Action × Bool)
  | [x, y] => if y.1.get_priority < x.1.get_priority then [y, x] else [x, y]
  | q => q

/-- `Battle._sort_actions`: sort the queue only when it is full. -/
def Battle.sort_actions (b : Battle) : Battle :=
  if !b.is_action_queue_full then b
  else { b with action_queue := sortPair b.action_queue }

/-- The tail of `Battle.enact_turn` after the head entry has been
popped: re-validate, apply if valid (otherwise return nothing),
advance the turn, and on a completed round run `post_round_actions`
on both sides' current pokemon. -/
def Battle.resolve_head (env : Env) (b1 : Battle) (a : Action)
    (is_player : Bool) : Except PyErr (Option (List String) × Battle) :=
  match a.is_valid b1 is_player with
  | .error e => .error e
  | .ok false => .ok (none, b1)
  | .ok true =>
    match a.apply env b1 is_player with
    | .error e => .error e
    | .ok (messages, b2) =>
      let b3 := b2.update_turn is_player
      match b3.turn with
      | some _ => .ok (some messages, b3)
      | none =>
        match b3.player.with_current Pokemon.post_round_actions with
        | .error e => .error e
        | .ok pl =>
          match b3.enemy.with_current Pokemon.post_round_actions with
          | .error e => .error e
          | .ok en => .ok (some messages, { b3 with player := pl, enemy := en })

/-- `Battle.enact_turn`: nothing on an empty queue; otherwise sort,
pop the head, and resolve it. -/
def Battle.enact_turn (env : Env) (b : Battle) :
    Except PyErr (Option (List String) × Battle) :=
  if b.is_action_queue_empty then .ok (none, b)
  else
    match (b.sort_actions).action_queue with
    | [] => .ok (none, b.sort_actions)
    | (a, is_player) :: rest =>
      Battle.resolve_head env { b.sort_actions with action_queue := rest }
        a is_player

/- ## Concrete fixtures used by the closed theorems -/

/-- `Trainer.__init__`. -/
def mkTrainer (n : String) : Trainer :=
  { name := n, selected_pokemon := none, pokemon := [], inventory := [] }

/-- An environment whose roll always succeeds and whose effectiveness
registry is empty (every pair defaults to 1). -/
def env0 : Env :=
  { roll := fun _ => true, eff := fun _ _ => 1, cbrtI := fun _ => 0 }

def statsA : PokemonStats :=
  { hit_chance := 1, max_health := 100, attack := 100, defense := 100 }

/-- The all-zero stat modifier. -/
def mod0 : PokemonStats :=
  { hit_chance := 0, max_health := 0, attack := 0, defense := 0 }

def pokeA : Pokemon := mkPokemon 1 "pika" statsA "electric" [] 1

/-- A wild pokemon carrying one timed stat modifier with 1 round
remaining (so a round-boundary tick would have to delete it). -/
def pokeB : Pokemon :=
  (mkPokemon 2 "wildmon" statsA "normal" [] 1).add_stat_modifier mod0 1

def ash : Trainer := (mkTrainer "Ash").add_pokemon pokeA

def wildT : Trainer := (mkTrainer "").add_pokemon pokeB

/-- A wild (non-duel) battle. -/
def bWild : Battle := mkBattle ash wildT false

/-- `bWild` with both sides' `Flee` actions queued (reached from
`bWild` by two `queue_action` calls, see `queue_flee_reaches_bFull`). -/
def bFull : Battle :=
  { bWild with action_queue := [(.flee, true), (.flee, false)] }

/-- The battle state after the first of the two flee actions resolves:
the wild battle ended early, the turn waits on the enemy, and the
enemy's stale flee is still queued (see `enact_first_flee`). -/
def bMid : Battle :=
  { bWild with finished_early := true, turn := some false,
               action_queue := [(.flee, false)] }

/-- The `toxic` debuff of the source doctests: speed 70, so priority
71. -/
def toxicMove : Move :=
  { core := { mid := 10, name := "toxic", element_type := "poison",
              max_uses := 10, speed := 70 },
    kind := .debuff mod0 4 }

def toxic : Action := .move toxicMove

/-- The `tackle` attack of the source doctests: speed 100, so priority
101. -/
def tackleMove : Move :=
  { core := { mid := 11, name := "tackle", element_type := "normal",
              max_uses := 15, speed := 100 },
    kind := .attack 40 (19 / 20) }

def tackle : Action := .move tackleMove

/-- A wild battle with a 101-priority attack submitted before a
71-priority debuff. -/
def bTwoMoves : Battle :=
  { bWild with action_queue := [(tackle, true), (toxic, false)] }

/-- A trainer to whom no pokemon was ever added. -/
def brock : Trainer := mkTrainer "Brock"

/-- A concrete pokeball item. -/
def masterBall : Item := .pokeball 50 "Master Ball" (1 / 2)

/-- One inventory operation (`add_item` or `use_item`), for stating
the inventory invariant over arbitrary operation sequences. -/
inductive InvOp where
  | add (i : Item) (uses : ℤ)
  | use (i : Item)

/-- Run a sequence of inventory operations on a trainer. -/
def runInvOps (t : Trainer) : List InvOp → Trainer
  | [] => t
  | .add i u :: rest => runInvOps (t.add_item i u) rest
  | .use i :: rest => runInvOps (t.use_item i) rest

/-- The inventory invariant: keys are distinct (it models a dict) and
every stored count is at least 1. -/
def GoodInventory (inv : List (Item × ℤ)) : Prop :=
  (inv.map Prod.fst).Nodup ∧ ∀ kv ∈ inv, 1 ≤ kv.2

/-- A concrete operation sequence whose adds are all positive. -/
def opsW : List InvOp :=
  [.add masterBall 3, .use masterBall, .add masterBall 4]

/-- A wild battle mid-round: the player has already acted, the turn
waits on the enemy, whose flee is queued. -/
def bTurnEnemy : Battle :=
  { bWild with turn := some false, action_queue := [(.flee, false)] }

/-- An environment whose roll always fails. -/
def envFalse : Env :=
  { roll := fun _ => false, eff := fun _ _ => 1, cbrtI := fun _ => 0 }

/-- `ash` also carrying two master balls. -/
def ashB : Trainer :=
  ((mkTrainer "Ash").add_pokemon pokeA).add_item masterBall 2

/-- A duel (trainer battle). -/
def bDuel : Battle := mkBattle ashB wildT true

def jynx (i : ℕ) : Pokemon := mkPokemon i "jynx" statsA "normal" [] 1

/-- A trainer with a full 6-pokemon roster and one master ball. -/
def ash6 : Trainer :=
  (((((((mkTrainer "Ash").add_pokemon (jynx 11)).add_pokemon
    (jynx 12)).add_pokemon (jynx 13)).add_pokemon (jynx 14)).add_pokemon
    (jynx 15)).add_pokemon (jynx 16)).add_item masterBall 1

/-- A wild battle whose player has a full roster. -/
def bWild6 : Battle := mkBattle ash6 wildT false

/-- `ashB` in a wild battle (room in the roster). -/
def bWildB : Battle := mkBattle ashB wildT false

/-- The exact value of the IEEE-754 double nearest to 1/3, i.e. of
the Python expression `1.0 / 3` appearing in `gain_experience`:
rounding 1/3 = 0.010101...₂ to 53 significant bits gives
6004799503160661 / 2^54 (note 3 * 6004799503160661 = 2^54 - 1, so
this is 1/3 - 1/(3·2^54), strictly below 1/3). -/
def pyOneThird : ℚ := 6004799503160661 / 2 ^ 54

/-- Modelled from the spec: the exact integer cube-root floor of the
documented level formula `level = floor(experience ** (1/3))` (the
`Pokemon` class docstring); `natCbrt n` is the greatest `k` with
`k ^ 3 ≤ n`.  The code instead truncates the double computation
`experience ** (1.0/3)`. -/
def cbrtAux (n : ℕ) : ℕ → ℕ
  | 0 => 0
  | k + 1 => if (k + 1) ^ 3 ≤ n then k + 1 else cbrtAux n k

def natCbrt (n : ℕ) : ℕ := cbrtAux n n

/-- A pokemon at level 3, hence with experience 27. -/
def pokeLvl3 : Pokemon := mkPokemon 4 "weedle" statsA "bug" [] 3


/-!
## Theorems
-/

/- ### Evaluation lemmas for the fixtures -/

theorem pokeA_health : pokeA.health = 100 := rfl

theorem pokeB_health : pokeB.health = 100 := by
  norm_num [pokeB, mkPokemon, Pokemon.add_stat_modifier, Pokemon.modify_health,
    Pokemon.get_stats, PokemonStats.apply_modifier, statsA, mod0]

theorem pokeA_not_fainted : pokeA.has_fainted = false := by
  simp only [Pokemon.has_fainted, pokeA_health]
  norm_num

theorem pokeB_not_fainted : pokeB.has_fainted = false := by
  simp only [Pokemon.has_fainted, pokeB_health]
  norm_num

theorem ash_eq : ash = { name := "Ash", selected_pokemon := some 0, pokemon := [pokeA], inventory := [] } := rfl

theorem wildT_eq : wildT = { name := "", selected_pokemon := some 0, pokemon := [pokeB], inventory := [] } := rfl

theorem ash_not_all_fainted : ash.all_pokemon_fainted = false := by
  simp [Trainer.all_pokemon_fainted, ash_eq, pokeA_not_fainted]

theorem wildT_not_all_fainted : wildT.all_pokemon_fainted = false := by
  simp [Trainer.all_pokemon_fainted, wildT_eq, pokeB_not_fainted]

theorem bWild_not_over : bWild.is_over = false := by
  simp [Battle.is_over, bWild, mkBattle, ash_not_all_fainted,
    wildT_not_all_fainted]

/-- Reaching `bFull` from `bWild`: both `queue_action` calls accept. -/
theorem queue_flee_reaches_bFull :
    (bWild.queue_action .flee true).bind
      (fun b1 => b1.queue_action .flee false) = .ok bFull := by
  have h1 : bWild.queue_action .flee true
      = .ok { bWild with action_queue := [(.flee, true)] } := by
    simp [Battle.queue_action, Battle.trainer_has_action_queued,
      Battle.is_ready, Battle.is_action_queue_full, bWild, mkBattle,
      Action.is_valid, Battle.get_trainer, ash_eq, wildT_eq,
      Trainer.get_current_pokemon, Trainer.all_pokemon_fainted,
      pyGet, pyResolve,
      Battle.base_action_valid, Battle.is_over,
      pokeA_not_fainted, pokeB_not_fainted]
  have h2 : Battle.queue_action { bWild with action_queue := [(.flee, true)] }
      .flee false = .ok bFull := by
    simp [Battle.queue_action, Battle.trainer_has_action_queued,
      Battle.is_ready, Battle.is_action_queue_full, bWild, mkBattle, bFull,
      Action.is_valid, Battle.get_trainer, ash_eq, wildT_eq,
      Trainer.get_current_pokemon, Trainer.all_pokemon_fainted,
      pyGet, pyResolve,
      Battle.base_action_valid, Battle.is_over,
      pokeA_not_fainted, pokeB_not_fainted]
  rw [h1]
  simpa using h2

/-- Resolving the first flee: the battle ends early (wild battle), the
summary is the flee-success message, and the turn moves to
`WaitingOn(enemy)` with the enemy's flee still queued. -/
theorem enact_first_flee :
    Battle.enact_turn env0 bFull = .ok (some [FLEE_SUCCESS], bMid) := by
  simp [Battle.enact_turn, Battle.is_action_queue_empty, bFull, bWild,
    mkBattle, Battle.sort_actions, Battle.is_action_queue_full, sortPair,
    Action.get_priority, Battle.resolve_head, Action.is_valid,
    Battle.get_trainer, ash_eq, wildT_eq, Trainer.get_current_pokemon,
    Trainer.all_pokemon_fainted, pyGet, pyResolve,
    Battle.base_action_valid, Battle.is_over,
    pokeA_not_fainted, pokeB_not_fainted, Action.apply, applyFlee,
    Battle.attempt_end_early, Battle.is_trainer_battle, Battle.update_turn,
    bMid]


/- ### C1: stale actions are discarded without advancing the turn -/

/-- Helper: sorting the queue touches no other field. -/
theorem sort_actions_player (b : Battle) : b.sort_actions.player = b.player := by
  unfold Battle.sort_actions; split <;> rfl

theorem sort_actions_enemy (b : Battle) : b.sort_actions.enemy = b.enemy := by
  unfold Battle.sort_actions; split <;> rfl

theorem sort_actions_turn (b : Battle) : b.sort_actions.turn = b.turn := by
  unfold Battle.sort_actions; split <;> rfl

theorem sort_actions_finished_early (b : Battle) :
    b.sort_actions.finished_early = b.finished_early := by
  unfold Battle.sort_actions; split <;> rfl

theorem sort_actions_trainer_battle (b : Battle) :
    b.sort_actions.trainer_battle = b.trainer_battle := by
  unfold Battle.sort_actions; split <;> rfl

/-- Helper: an empty queue is left alone by `sort_actions`. -/
theorem sort_actions_of_nil (b : Battle) (h : b.action_queue = []) :
    b.sort_actions = b := by
  unfold Battle.sort_actions Battle.is_action_queue_full
  simp [h]

/-- Helper: a battle whose sorted queue is a cons does not have an
empty queue. -/
theorem not_empty_of_sorted_cons (b : Battle) (x : Action × Bool)
    (rest1 : List (Action × Bool))
    (h : b.sort_actions.action_queue = x :: rest1) :
    b.is_action_queue_empty = false := by
  unfold Battle.is_action_queue_empty
  cases hq : b.action_queue with
  | nil => rw [sort_actions_of_nil b hq, hq] at h; cases h
  | cons y ys => simp [hq]

/-- C1 (amended): when the head action popped by `enact_turn` is
re-validated and found invalid, it is discarded producing no summary,
and the battle state is otherwise untouched: the popped entry is gone
from the queue, but the turn-state does NOT advance (no transition to
`WaitingOn`, no reversion to `Unset`, no round-boundary upkeep), and
both trainers are exactly as before. -/
theorem enact_turn_stale_action (env : Env) (b : Battle) (a : Action)
    (p : Bool) (rest1 : List (Action × Bool))
    (h1 : b.sort_actions.action_queue = (a, p) :: rest1)
    (h2 : a.is_valid { b.sort_actions with action_queue := rest1 } p
            = .ok false) :
    Battle.enact_turn env b
        = .ok (none, { b.sort_actions with action_queue := rest1 })
      ∧ ({ b.sort_actions with action_queue := rest1 } : Battle).turn = b.turn
      ∧ ({ b.sort_actions with action_queue := rest1 } : Battle).player
          = b.player
      ∧ ({ b.sort_actions with action_queue := rest1 } : Battle).enemy
          = b.enemy
      ∧ ({ b.sort_actions with action_queue := rest1 } : Battle).finished_early
          = b.finished_early := by
  refine ⟨?_, sort_actions_turn b, sort_actions_player b,
    sort_actions_enemy b, sort_actions_finished_early b⟩
  have hne := not_empty_of_sorted_cons b (a, p) rest1 h1
  unfold Battle.enact_turn
  rw [hne]
  simp only [Bool.false_eq_true, if_false, h1, Battle.resolve_head, h2]

/-- Witness for C1's amended theorem at the concrete stale-flee
state `bMid`. -/
theorem enact_turn_stale_action_witness :
    Battle.enact_turn env0 bMid
        = .ok (none, { bMid.sort_actions with action_queue := [] })
      ∧ ({ bMid.sort_actions with action_queue := [] } : Battle).turn
          = bMid.turn :=
  ⟨(enact_turn_stale_action env0 bMid .flee false [] rfl rfl).1,
   (enact_turn_stale_action env0 bMid .flee false [] rfl rfl).2.1⟩

/-- C1 counterexample to the claim as stated: in the stale-flee state
`bMid` (reached from `bWild`, see `queue_flee_reaches_bFull` and
`enact_first_flee`) the call returns nothing, yet the turn-state does
NOT revert from `WaitingOn(enemy)` to `Unset`, and no round-boundary
upkeep runs: the enemy pokemon's 1-round timed modifier survives. -/
theorem enact_turn_stale_turn_not_advanced_cex :
    bMid.action_queue = [(.flee, false)]
      ∧ bMid.turn = some false
      ∧ Battle.enact_turn env0 bMid
          = .ok (none, { bMid with action_queue := [] })
      ∧ ({ bMid with action_queue := [] } : Battle).turn = some false
      ∧ ({ bMid with action_queue := [] } : Battle
          ).enemy.pokemon.map Pokemon.stat_modifiers = [[(mod0, 1)]] :=
  ⟨rfl, rfl, rfl, rfl, rfl⟩


/- ### C3: queue_action accepts or rejects with no other state change -/

/-- C3: `queue_action` leaves the battle entirely unchanged when the
side is already queued, or the battle `is_ready`, or the action is
invalid for that side; otherwise it appends exactly `(action, side)`
to the queue and changes nothing else. -/
theorem queue_action_spec (b : Battle) (a : Action) (p : Bool) :
    (b.trainer_has_action_queued p = true ∨ b.is_ready = true →
        b.queue_action a p = .ok b)
  ∧ (b.trainer_has_action_queued p = false → b.is_ready = false →
        a.is_valid b p = .ok false → b.queue_action a p = .ok b)
  ∧ (b.trainer_has_action_queued p = false → b.is_ready = false →
        a.is_valid b p = .ok true →
        b.queue_action a p
          = .ok { b with action_queue := b.action_queue ++ [(a, p)] }) := by
  refine ⟨?_, ?_, ?_⟩
  · intro h
    rcases h with h | h <;> simp [Battle.queue_action, h]
  · intro h1 h2 h3
    simp [Battle.queue_action, h1, h2, h3]
  · intro h1 h2 h3
    simp [Battle.queue_action, h1, h2, h3]

/-- Helper: the base validity check passes for the player in the
fresh wild battle. -/
theorem bWild_base_valid : bWild.base_action_valid true = true := by
  unfold Battle.base_action_valid
  rw [bWild_not_over]
  rfl

/-- Helper: fleeing is valid for the player in the fresh wild battle. -/
theorem flee_valid_bWild : Action.is_valid .flee bWild true = .ok true := by
  have hcur : (bWild.get_trainer true).get_current_pokemon = .ok pokeA := rfl
  simp only [Action.is_valid, hcur, bWild_base_valid, pokeA_not_fainted]
  rfl

/-- Helper: switching to the out-of-range index 5 is invalid in the
fresh wild battle. -/
theorem switch5_invalid_bWild :
    Action.is_valid (.switch_pokemon 5) bWild true = .ok false := by
  simp only [Action.is_valid, bWild_base_valid, Bool.not_true,
    Bool.false_eq_true, if_false]
  rfl

/-- Witness for C3: all three cases at concrete inputs — a valid flee
is appended; a second submission by an already-queued side is a
silent no-op; an invalid switch is a silent no-op. -/
theorem queue_action_spec_witness :
    bWild.queue_action .flee true
        = .ok { bWild with
                action_queue := bWild.action_queue ++ [(.flee, true)] }
      ∧ bFull.queue_action .flee true = .ok bFull
      ∧ bWild.queue_action (.switch_pokemon 5) true = .ok bWild :=
  ⟨(queue_action_spec bWild .flee true).2.2 rfl rfl flee_valid_bWild,
   (queue_action_spec bFull .flee true).1 (Or.inl rfl),
   (queue_action_spec bWild (.switch_pokemon 5) true).2.1 rfl rfl
     switch5_invalid_bWild⟩

/- ### C6: priority ordering of a full queue -/

/-- C6: with a full queue, `enact_turn` behaves exactly as on the
priority-sorted queue (Python sorts before popping); the sort is the
ascending stable one: a first entry of smaller-or-equal priority keeps
submission order, a strictly lower-priority second entry swaps ahead;
concretely the priority-71 `toxic` debuff resolves before the
priority-101 `tackle` attack whichever was submitted first. -/
theorem enact_turn_priority_order :
    (∀ x y : Action × Bool, x.1.get_priority ≤ y.1.get_priority →
        sortPair [x, y] = [x, y])
  ∧ (∀ x y : Action × Bool, y.1.get_priority < x.1.get_priority →
        sortPair [x, y] = [y, x])
  ∧ (∀ (env : Env) (b : Battle) (x y : Action × Bool),
        b.action_queue = [x, y] →
        Battle.enact_turn env b
          = Battle.enact_turn env { b with action_queue := sortPair [x, y] })
  ∧ toxic.get_priority = 71 ∧ tackle.get_priority = 101
  ∧ sortPair [(tackle, true), (toxic, false)]
      = [(toxic, false), (tackle, true)]
  ∧ sortPair [(toxic, false), (tackle, true)]
      = [(toxic, false), (tackle, true)] := by
  refine ⟨?_, ?_, ?_, rfl, rfl, rfl, rfl⟩
  · intro x y hle
    simp [sortPair, not_lt.mpr hle]
  · intro x y hlt
    simp [sortPair, hlt]
  · intro env b x y hq
    have hsort1 : b.sort_actions
        = { b with action_queue := sortPair [x, y] } := by
      unfold Battle.sort_actions Battle.is_action_queue_full
      rw [hq]
      simp
    by_cases hc : (y.1).get_priority < (x.1).get_priority
    · have hnc : ¬ (x.1).get_priority < (y.1).get_priority := lt_asymm hc
      have hxy : sortPair [x, y] = [y, x] := by simp [sortPair, hc]
      have hsort2 :
          ({ b with action_queue := [y, x] } : Battle).sort_actions
            = { b with action_queue := [y, x] } := by
        unfold Battle.sort_actions Battle.is_action_queue_full
        simp [sortPair, hnc]
      unfold Battle.enact_turn
      rw [hxy, hsort1, hxy, hsort2]
      simp [Battle.is_action_queue_empty, hq]
    · have hxy : sortPair [x, y] = [x, y] := by simp [sortPair, hc]
      have hsort2 :
          ({ b with action_queue := [x, y] } : Battle).sort_actions
            = { b with action_queue := [x, y] } := by
        unfold Battle.sort_actions Battle.is_action_queue_full
        simp [sortPair, hc]
      unfold Battle.enact_turn
      rw [hxy, hsort1, hxy, hsort2]
      simp [Battle.is_action_queue_empty, hq]

/-- Witness for C6 at concrete inputs: the swap case on the 71/101
pair, and the enact-equals-enact-on-sorted case on the concrete
two-move battle. -/
theorem enact_turn_priority_order_witness :
    sortPair [(tackle, true), (toxic, false)]
        = [(toxic, false), (tackle, true)]
      ∧ Battle.enact_turn env0 bTwoMoves
          = Battle.enact_turn env0
              { bTwoMoves with
                action_queue := sortPair [(tackle, true), (toxic, false)] } :=
  ⟨enact_turn_priority_order.2.1 (tackle, true) (toxic, false) (by decide),
   enact_turn_priority_order.2.2.1 env0 bTwoMoves (tackle, true)
     (toxic, false) rfl⟩


/- ### Association-list lemmas -/

theorem assocLookup_mem {κ β : Type} [DecidableEq κ] (l : List (κ × β))
    (k : κ) (v : β) (h : assocLookup l k = some v) : (k, v) ∈ l := by
  induction l with
  | nil => cases h
  | cons kv rest ih =>
    unfold assocLookup at h
    by_cases hk : kv.1 = k
    · rw [if_pos hk] at h
      injection h with h
      subst hk
      subst h
      exact List.mem_cons_self _ _
    · rw [if_neg hk] at h
      exact List.mem_cons_of_mem _ (ih h)

theorem assocLookup_none_not_mem {κ β : Type} [DecidableEq κ]
    (l : List (κ × β)) (k : κ) (h : assocLookup l k = none) :
    k ∉ l.map Prod.fst := by
  induction l with
  | nil => simp
  | cons kv rest ih =>
    unfold assocLookup at h
    by_cases hk : kv.1 = k
    · rw [if_pos hk] at h; cases h
    · rw [if_neg hk] at h
      simp only [List.map_cons, List.mem_cons]
      rintro (h1 | h1)
      · exact hk h1.symm
      · exact ih h h1

theorem assocUpdate_mem {κ β : Type} [DecidableEq κ] (l : List (κ × β))
    (k : κ) (v : β) (kv : κ × β) (h : kv ∈ assocUpdate l k v) :
    kv = (k, v) ∨ kv ∈ l := by
  induction l with
  | nil => simpa [assocUpdate] using h
  | cons kv1 rest ih =>
    unfold assocUpdate at h
    by_cases hk : kv1.1 = k
    · rw [if_pos hk] at h
      rcases List.mem_cons.mp h with h1 | h1
      · exact Or.inl h1
      · exact Or.inr (List.mem_cons_of_mem _ h1)
    · rw [if_neg hk] at h
      rcases List.mem_cons.mp h with h1 | h1
      · exact Or.inr (h1 ▸ List.mem_cons_self _ _)
      · rcases ih h1 with h2 | h2
        · exact Or.inl h2
        · exact Or.inr (List.mem_cons_of_mem _ h2)

theorem assocUpdate_keys {κ β : Type} [DecidableEq κ] (l : List (κ × β))
    (k : κ) (v : β) :
    (assocUpdate l k v).map Prod.fst
      = if k ∈ l.map Prod.fst then l.map Prod.fst
        else l.map Prod.fst ++ [k] := by
  induction l with
  | nil => simp [assocUpdate]
  | cons kv rest ih =>
    unfold assocUpdate
    by_cases hk : kv.1 = k
    · rw [if_pos hk]
      subst hk
      simp
    · rw [if_neg hk]
      have hne : ¬ k = kv.1 := fun h => hk h.symm
      simp only [List.map_cons, List.mem_cons, hne, false_or, ih]
      by_cases hm : k ∈ rest.map Prod.fst
      · simp [hm]
      · simp [hm]

theorem assocUpdate_of_none {κ β : Type} [DecidableEq κ] (l : List (κ × β))
    (k : κ) (v : β) (h : assocLookup l k = none) :
    assocUpdate l k v = l ++ [(k, v)] := by
  induction l with
  | nil => simp [assocUpdate]
  | cons kv rest ih =>
    unfold assocLookup at h
    unfold assocUpdate
    by_cases hk : kv.1 = k
    · rw [if_pos hk] at h; cases h
    · rw [if_neg hk] at h
      rw [if_neg hk, ih h]
      simp

theorem assocLookup_update_self {κ β : Type} [DecidableEq κ]
    (l : List (κ × β)) (k : κ) (v : β) :
    assocLookup (assocUpdate l k v) k = some v := by
  induction l with
  | nil => simp [assocUpdate, assocLookup]
  | cons kv rest ih =>
    unfold assocUpdate
    by_cases hk : kv.1 = k
    · rw [if_pos hk]
      simp [assocLookup]
    · rw [if_neg hk]
      unfold assocLookup
      rw [if_neg hk]
      exact ih

theorem assocErase_sublist {κ β : Type} [DecidableEq κ] (l : List (κ × β))
    (k : κ) : List.Sublist (assocErase l k) l := by
  induction l with
  | nil => simp [assocErase]
  | cons kv rest ih =>
    unfold assocErase
    by_cases hk : kv.1 = k
    · rw [if_pos hk]
      exact List.sublist_cons_self _ _
    · rw [if_neg hk]
      exact List.Sublist.cons₂ _ ih

/- ### C8: the inventory never stores a 0 count -/

/-- Helper: `add_item` with a positive amount preserves the
invariant. -/
theorem goodInventory_add_item (t : Trainer) (i : Item) (u : ℤ)
    (h : GoodInventory t.inventory) (hu : 1 ≤ u) :
    GoodInventory (t.add_item i u).inventory := by
  obtain ⟨hnd, hval⟩ := h
  constructor
  · show ((assocUpdate t.inventory i _).map Prod.fst).Nodup
    rw [assocUpdate_keys]
    split
    · exact hnd
    · next hnotin => simp [List.nodup_append, hnd, hnotin]
  · intro kv hkv
    rcases assocUpdate_mem _ _ _ _ hkv with h1 | h1
    · subst h1
      cases hl : assocLookup t.inventory i with
      | none => simp [hl]; omega
      | some c =>
        have hc := hval _ (assocLookup_mem _ _ _ hl)
        simp only [hl, Option.getD_some]
        omega
    · exact hval _ h1

/-- Helper: `use_item` preserves the invariant (removing the key when
the count would hit 0). -/
theorem goodInventory_use_item (t : Trainer) (i : Item)
    (h : GoodInventory t.inventory) :
    GoodInventory (t.use_item i).inventory := by
  obtain ⟨hnd, hval⟩ := h
  cases hl : assocLookup t.inventory i with
  | none =>
    simp only [Trainer.use_item, hl]
    exact ⟨hnd, hval⟩
  | some c =>
    have hc := hval _ (assocLookup_mem _ _ _ hl)
    by_cases hz : c - 1 = 0
    · simp only [Trainer.use_item, hl, if_pos hz]
      refine ⟨List.Nodup.sublist ((assocErase_sublist _ _).map Prod.fst)
        hnd, ?_⟩
      intro kv hkv
      exact hval _ ((assocErase_sublist _ _).subset hkv)
    · simp only [Trainer.use_item, hl, if_neg hz]
      constructor
      · show ((assocUpdate t.inventory i _).map Prod.fst).Nodup
        rw [assocUpdate_keys]
        split
        · exact hnd
        · next hnotin => simp [List.nodup_append, hnd, hnotin]
      · intro kv hkv
        rcases assocUpdate_mem _ _ _ _ hkv with h1 | h1
        · subst h1
          show 1 ≤ c - 1
          omega
        · exact hval _ h1

/-- Helper: the invariant is preserved by any operation sequence
whose `add` amounts are all positive. -/
theorem runInvOps_good (ops : List InvOp) (t : Trainer)
    (h : GoodInventory t.inventory)
    (hpos : ∀ i u, InvOp.add i u ∈ ops → 1 ≤ u) :
    GoodInventory (runInvOps t ops).inventory := by
  induction ops generalizing t with
  | nil => simpa [runInvOps] using h
  | cons op rest ih =>
    cases op with
    | add i u =>
      exact ih _
        (goodInventory_add_item t i u h
          (hpos i u (List.mem_cons_self _ _)))
        (fun j w hm => hpos j w (List.mem_cons_of_mem _ hm))
    | use i =>
      exact ih _ (goodInventory_use_item t i h)
        (fun j w hm => hpos j w (List.mem_cons_of_mem _ hm))

/-- C8 (amended): starting from an inventory satisfying the dict
invariant, after any sequence of `add_item` / `use_item` operations
in which every `add_item` amount is at least 1, the inventory never
maps an item to a stored count of 0 (every stored count is ≥ 1), and
`has_item` holds iff the item is present with at least one remaining
use. -/
theorem inventory_never_zero (t : Trainer) (ops : List InvOp)
    (h0 : GoodInventory t.inventory)
    (hpos : ∀ i u, InvOp.add i u ∈ ops → 1 ≤ u) :
    (∀ kv ∈ (runInvOps t ops).inventory, 1 ≤ kv.2)
  ∧ ∀ i, ((runInvOps t ops).has_item i = true
        ↔ ∃ c, assocLookup (runInvOps t ops).inventory i = some c
             ∧ 1 ≤ c) := by
  have hg := runInvOps_good ops t h0 hpos
  refine ⟨hg.2, ?_⟩
  intro i
  unfold Trainer.has_item
  rw [Option.isSome_iff_exists]
  constructor
  · rintro ⟨c, hc⟩
    exact ⟨c, hc, hg.2 _ (assocLookup_mem _ _ _ hc)⟩
  · rintro ⟨c, hc, _⟩
    exact ⟨c, hc⟩

/-- Witness for C8's amended theorem on a concrete sequence
(add 3, use, add 4 of the same pokeball). -/
theorem inventory_never_zero_witness :
    (∀ kv ∈ (runInvOps brock opsW).inventory, 1 ≤ kv.2)
  ∧ ∀ i, ((runInvOps brock opsW).has_item i = true
        ↔ ∃ c, assocLookup (runInvOps brock opsW).inventory i = some c
             ∧ 1 ≤ c) :=
  inventory_never_zero brock opsW
    (by constructor <;> simp [brock, mkTrainer])
    (by
      intro i u hm
      simp only [opsW, List.mem_cons, List.not_mem_nil, or_false] at hm
      rcases hm with h | h | h <;> first
        | (injection h with h1 h2; omega)
        | cases h)

/-- C8 counterexample to the claim as stated over *every* sequence:
`add_item` with amount 0 stores the count 0 (and `has_item` is then
true with no remaining use). -/
theorem add_item_zero_stores_zero_cex :
    (brock.add_item masterBall 0).inventory = [(masterBall, 0)]
  ∧ assocLookup (brock.add_item masterBall 0).inventory masterBall = some 0
  ∧ (brock.add_item masterBall 0).has_item masterBall = true := by
  refine ⟨rfl, ?_, ?_⟩ <;>
    simp [brock, mkTrainer, Trainer.add_item, Trainer.has_item,
      assocUpdate, assocLookup]


/- ### C9: the 4-move cap -/

/-- Helper: `can_learn_move` unpacked. -/
theorem can_learn_move_iff (p : Pokemon) (m : Move) :
    p.can_learn_move m = true
      ↔ p.moves.length < 4 ∧ assocLookup p.moves m = none := by
  unfold Pokemon.can_learn_move MAXIMUM_MOVE_SLOTS
  split
  · next h => simp; omega
  · next h =>
    simp only [Option.isNone_iff_eq_none, true_and, iff_and_self]
    intro _
    omega

/-- Helper: the constructor's learning fold keeps at most 4 distinct
moves whose keys are an in-order selection of the supplied list. -/
theorem learn_fold_invariant (ms : List Move) (p : Pokemon)
    (h1 : p.moves.length ≤ 4) (h2 : (p.moves.map Prod.fst).Nodup) :
    ((ms.foldl
        (fun q m => if q.can_learn_move m then q.learn_move m else q)
        p).moves.length ≤ 4)
  ∧ (((ms.foldl
        (fun q m => if q.can_learn_move m then q.learn_move m else q)
        p).moves.map Prod.fst).Nodup)
  ∧ ∃ tail, List.Sublist tail ms
      ∧ (ms.foldl
          (fun q m => if q.can_learn_move m then q.learn_move m else q)
          p).moves.map Prod.fst = p.moves.map Prod.fst ++ tail := by
  induction ms generalizing p with
  | nil => exact ⟨h1, h2, [], List.nil_sublist _, by simp⟩
  | cons m rest ih =>
    simp only [List.foldl_cons]
    by_cases hc : p.can_learn_move m = true
    · obtain ⟨hlt, hnone⟩ := (can_learn_move_iff p m).mp hc
      have hkeys : (p.learn_move m).moves = p.moves ++ [(m, m.core.max_uses)] := by
        unfold Pokemon.learn_move
        simp [assocUpdate_of_none _ _ _ hnone]
      have hnotmem := assocLookup_none_not_mem _ _ hnone
      have h1b : (p.learn_move m).moves.length ≤ 4 := by
        rw [hkeys]; simp; omega
      have h2b : ((p.learn_move m).moves.map Prod.fst).Nodup := by
        rw [hkeys]
        simp [List.nodup_append, h2, hnotmem]
      obtain ⟨ha, hb, tail, hsub, hkeq⟩ := ih (p.learn_move m) h1b h2b
      refine ⟨by simpa [hc] using ha, by simpa [hc] using hb,
        m :: tail, List.Sublist.cons₂ _ hsub, ?_⟩
      simp only [hc, if_true, hkeq, hkeys]
      simp
    · have hcf : p.can_learn_move m = false := by
        cases hcl : p.can_learn_move m
        · rfl
        · exact absurd hcl hc
      obtain ⟨ha, hb, tail, hsub, hkeq⟩ := ih p h1 h2
      exact ⟨by simpa [hcf] using ha, by simpa [hcf] using hb,
        tail, List.Sublist.cons _ hsub, by simpa [hcf] using hkeq⟩

/-- C9: the constructor learns the supplied moves in order only while
`can_learn_move` holds, so the learned keys are a duplicate-free
in-order selection of the list and never more than 4; moreover
`learn_move` guarded by `can_learn_move` and `forget_move` keep any
roster of at most 4 moves at most 4. -/
theorem pokemon_move_cap :
    (∀ (pid : ℕ) (nm : String) (st : PokemonStats) (et : String)
        (ms : List Move) (lv : ℤ),
        (mkPokemon pid nm st et ms lv).moves.length ≤ 4
      ∧ (((mkPokemon pid nm st et ms lv).moves.map Prod.fst)).Nodup
      ∧ List.Sublist ((mkPokemon pid nm st et ms lv).moves.map Prod.fst) ms)
  ∧ (∀ (p : Pokemon) (m : Move), p.moves.length ≤ 4 →
        p.can_learn_move m = true → (p.learn_move m).moves.length ≤ 4)
  ∧ (∀ (p : Pokemon) (m : Move), p.moves.length ≤ 4 →
        (p.forget_move m).moves.length ≤ 4) := by
  refine ⟨?_, ?_, ?_⟩
  · intro pid nm st et ms lv
    have h := learn_fold_invariant ms
      { pid := pid, name := nm, element_type := et, stats := st,
        stat_modifiers := [], health := st.max_health, level := lv,
        experience := lv ^ 3, moves := [] } (by simp) (by simp)
    obtain ⟨h1, h2, tail, hsub, hkeq⟩ := h
    refine ⟨h1, h2, ?_⟩
    unfold mkPokemon
    rw [hkeq]
    simpa using hsub
  · intro p m hlen hc
    obtain ⟨hlt, hnone⟩ := (can_learn_move_iff p m).mp hc
    unfold Pokemon.learn_move
    rw [assocUpdate_of_none _ _ _ hnone]
    simp
    omega
  · intro p m hlen
    unfold Pokemon.forget_move
    split
    · simp only []
      calc (assocErase p.moves m).length ≤ p.moves.length :=
            (assocErase_sublist _ _).length_le
        _ ≤ 4 := hlen
    · exact hlen

/-- Witness for C9 at concrete inputs: a six-entry move list (with a
duplicate) still yields at most 4 learned moves, and the guarded
learn / forget operations at a concrete pokemon stay within the
cap. -/
theorem pokemon_move_cap_witness :
    ((mkPokemon 3 "machop" statsA "fighting"
        [toxicMove, tackleMove, toxicMove, tackleMove, toxicMove,
         tackleMove] 1).moves.length ≤ 4)
  ∧ (pokeA.learn_move tackleMove).moves.length ≤ 4
  ∧ (pokeA.forget_move tackleMove).moves.length ≤ 4 :=
  ⟨(pokemon_move_cap.1 3 "machop" statsA "fighting"
      [toxicMove, tackleMove, toxicMove, tackleMove, toxicMove,
       tackleMove] 1).1,
   pokemon_move_cap.2.1 pokeA tackleMove (by decide) rfl,
   pokemon_move_cap.2.2 pokeA tackleMove (by decide)⟩

/- ### C10: switch_pokemon is unconditional -/

/-- C10 (amended): `switch_pokemon` sets the selection index
unconditionally and changes nothing else; if the stored index is out
of the roster's bounds, `get_current_pokemon` fails with the indexing
error, not with `NoPokemonException`; `NoPokemonException` is raised
iff the selection was never set (which, after any `switch_pokemon`
call, can no longer happen — even on a trainer with no pokemon). -/
theorem switch_pokemon_unconditional (t : Trainer) (i : ℤ) :
    (t.switch_pokemon i = { t with selected_pokemon := some i })
  ∧ (∀ j, t.selected_pokemon = some j →
        pyResolve t.pokemon.length j = none →
        t.get_current_pokemon = .error .indexError)
  ∧ (t.get_current_pokemon = .error .noPokemonException
        ↔ t.selected_pokemon = none)
  ∧ ((t.switch_pokemon i).get_current_pokemon
        ≠ .error .noPokemonException) := by
  refine ⟨rfl, ?_, ?_, ?_⟩
  · intro j h1 h2
    unfold Trainer.get_current_pokemon pyGet
    simp only [h1]
    rw [h2]
    rfl
  · unfold Trainer.get_current_pokemon
    cases t.selected_pokemon with
    | none => simp
    | some j =>
      simp only [reduceCtorEq, iff_false]
      cases pyGet t.pokemon j <;> simp
  · unfold Trainer.switch_pokemon Trainer.get_current_pokemon
    simp only []
    cases pyGet t.pokemon i <;> simp

/-- Witness for C10's amended theorem: switching `ash` to the
out-of-range index 7 sets the index and makes `get_current_pokemon`
raise the indexing error; the never-selected `brock` raises
`NoPokemonException`. -/
theorem switch_pokemon_unconditional_witness :
    (ash.switch_pokemon 7 = { ash with selected_pokemon := some 7 })
  ∧ (ash.switch_pokemon 7).get_current_pokemon = .error .indexError
  ∧ (brock.get_current_pokemon = .error .noPokemonException
        ↔ brock.selected_pokemon = none) :=
  ⟨(switch_pokemon_unconditional ash 7).1,
   (switch_pokemon_unconditional (ash.switch_pokemon 7) 0).2.1 7 rfl rfl,
   (switch_pokemon_unconditional brock 0).2.2.1⟩

/-- C10 counterexample to the claim's final iff as stated: calling
`switch_pokemon 0` on a trainer to whom no pokemon has ever been
added makes the subsequent `get_current_pokemon` fail with the
indexing error, not with `NoPokemonException`, even though no pokemon
has ever been added. -/
theorem switch_then_get_not_no_pokemon_cex :
    brock.pokemon = []
  ∧ (brock.switch_pokemon 0).get_current_pokemon = .error .indexError
  ∧ (brock.switch_pokemon 0).get_current_pokemon
      ≠ .error .noPokemonException := by
  refine ⟨rfl, rfl, ?_⟩
  intro h
  have h2 : (brock.switch_pokemon 0).get_current_pokemon
      = .error .indexError := rfl
  rw [h2] at h
  injection h with h
  cases h


/- ### C2: round-boundary upkeep fires exactly once per round -/

theorem set_trainer_turn (b : Battle) (p : Bool) (t : Trainer) :
    (b.set_trainer p t).turn = b.turn := by
  unfold Battle.set_trainer; split <;> rfl

theorem set_trainer_queue (b : Battle) (p : Bool) (t : Trainer) :
    (b.set_trainer p t).action_queue = b.action_queue := by
  unfold Battle.set_trainer; split <;> rfl

theorem attempt_end_early_turn (b : Battle) :
    b.attempt_end_early.turn = b.turn := by
  unfold Battle.attempt_end_early; split <;> rfl

theorem attempt_end_early_queue (b : Battle) :
    b.attempt_end_early.action_queue = b.action_queue := by
  unfold Battle.attempt_end_early; split <;> rfl

/-- Helper: no `apply` implementation touches the turn or the queue. -/
theorem applyAttack_preserves (env : Env) (b : Battle) (p : Bool) (m : Move)
    (d hc : ℚ) (msgs : List String) (b2 : Battle)
    (h : applyAttackEnemyEffects env b p m d hc = .ok (msgs, b2)) :
    b2.turn = b.turn ∧ b2.action_queue = b.action_queue := by
  unfold applyAttackEnemyEffects at h
  cases hcur1 : (b.get_trainer p).get_current_pokemon with
  | error e => simp only [hcur1] at h; cases h
  | ok pk =>
  simp only [hcur1] at h
  cases hcur2 : (b.get_trainer (!p)).get_current_pokemon with
  | error e => simp only [hcur2] at h; cases h
  | ok epk =>
  simp only [hcur2] at h
  by_cases hr : (!env.roll (pk.get_stats.hit_chance * hc)) = true
  · rw [if_pos hr] at h
    injection h with h
    injection h with h1 h2
    subst h2
    exact ⟨rfl, rfl⟩
  · rw [if_neg hr] at h
    cases hwc : (b.get_trainer (!p)).with_current
        (fun q => q.modify_health
          (-(pyInt (d * env.eff m.core.element_type epk.element_type
              * pk.get_stats.attack
              / (epk.get_stats.defense + 1)) : ℚ))) with
    | error e => simp only [hwc] at h; cases h
    | ok enemyT =>
    simp only [hwc] at h
    cases hcur3 : ((b.set_trainer (!p) enemyT).get_trainer
        (!p)).get_current_pokemon with
    | error e => simp only [hcur3] at h; cases h
    | ok enemy2 =>
    simp only [hcur3] at h
    by_cases hf : enemy2.has_fainted = true
    · rw [if_pos hf] at h
      cases hwc2 : ((b.set_trainer (!p) enemyT).get_trainer p).with_current
          (fun q => q.gain_experience env.cbrtI
            enemy2.experience_on_death) with
      | error e => simp only [hwc2] at h; cases h
      | ok playerT =>
      simp only [hwc2] at h
      injection h with h
      injection h with h1 h2
      subst h2
      simp [set_trainer_turn, set_trainer_queue]
    · rw [if_neg hf] at h
      injection h with h
      injection h with h1 h2
      subst h2
      simp [set_trainer_turn, set_trainer_queue]

theorem applyBuff_preserves (b : Battle) (p : Bool) (mo : PokemonStats)
    (r : ℤ) (msgs : List String) (b2 : Battle)
    (h : applyBuffAllyEffects b p mo r = .ok (msgs, b2)) :
    b2.turn = b.turn ∧ b2.action_queue = b.action_queue := by
  unfold applyBuffAllyEffects at h
  cases hcur : (b.get_trainer p).get_current_pokemon with
  | error e => simp only [hcur] at h; cases h
  | ok pk =>
  simp only [hcur] at h
  cases hwc : (b.get_trainer p).with_current
      (fun q => q.add_stat_modifier mo r) with
  | error e => simp only [hwc] at h; cases h
  | ok t1 =>
  simp only [hwc] at h
  injection h with h
  injection h with h1 h2
  subst h2
  simp [set_trainer_turn, set_trainer_queue]

theorem applyDebuff_preserves (b : Battle) (p : Bool) (mo : PokemonStats)
    (r : ℤ) (msgs : List String) (b2 : Battle)
    (h : applyDebuffEnemyEffects b p mo r = .ok (msgs, b2)) :
    b2.turn = b.turn ∧ b2.action_queue = b.action_queue := by
  unfold applyDebuffEnemyEffects at h
  cases hcur : (b.get_trainer (!p)).get_current_pokemon with
  | error e => simp only [hcur] at h; cases h
  | ok pk =>
  simp only [hcur] at h
  cases hwc : (b.get_trainer (!p)).with_current
      (fun q => q.add_stat_modifier mo r) with
  | error e => simp only [hwc] at h; cases h
  | ok t1 =>
  simp only [hwc] at h
  injection h with h
  injection h with h1 h2
  subst h2
  simp [set_trainer_turn, set_trainer_queue]

theorem applySwitch_preserves (b : Battle) (p : Bool) (idx : ℤ)
    (msgs : List String) (b2 : Battle)
    (h : applySwitch b p idx = .ok (msgs, b2)) :
    b2.turn = b.turn ∧ b2.action_queue = b.action_queue := by
  unfold applySwitch at h
  cases hcur : (b.get_trainer p).get_current_pokemon with
  | error e => simp only [hcur] at h; cases h
  | ok pk =>
  simp only [hcur] at h
  cases hpg : pyGet (b.get_trainer p).pokemon idx with
  | none => simp only [hpg] at h; cases h
  | some nxt =>
  simp only [hpg] at h
  injection h with h
  injection h with h1 h2
  subst h2
  simp [set_trainer_turn, set_trainer_queue]

theorem applyPokeball_preserves (env : Env) (b : Battle) (p : Bool)
    (ball : Item) (cc : ℚ) (msgs : List String) (b2 : Battle)
    (h : applyPokeball env b p ball cc = .ok (msgs, b2)) :
    b2.turn = b.turn ∧ b2.action_queue = b.action_queue := by
  unfold applyPokeball at h
  by_cases htb : (b.set_trainer p
      ((b.get_trainer p).use_item ball)).is_trainer_battle = true
  · rw [if_pos htb] at h
    injection h with h
    injection h with h1 h2
    subst h2
    simp [set_trainer_turn, set_trainer_queue]
  · rw [if_neg htb] at h
    cases hcur : ((b.set_trainer p ((b.get_trainer p).use_item
        ball)).get_trainer (!p)).get_current_pokemon with
    | error e => simp only [hcur] at h; cases h
    | ok epk =>
    simp only [hcur] at h
    by_cases hr : (!env.roll cc) = true
    · rw [if_pos hr] at h
      injection h with h
      injection h with h1 h2
      subst h2
      simp [set_trainer_turn, set_trainer_queue]
    · rw [if_neg hr] at h
      by_cases hca : ((b.set_trainer p ((b.get_trainer p).use_item
          ball)).get_trainer p).can_add_pokemon epk = true
      · rw [if_pos hca] at h
        injection h with h
        injection h with h1 h2
        subst h2
        simp [attempt_end_early_turn, attempt_end_early_queue,
          set_trainer_turn, set_trainer_queue]
      · rw [if_neg hca] at h
        injection h with h
        injection h with h1 h2
        subst h2
        simp [attempt_end_early_turn, attempt_end_early_queue,
          set_trainer_turn, set_trainer_queue]

theorem applyFood_preserves (b : Battle) (p : Bool) (food : Item) (hr : ℚ)
    (msgs : List String) (b2 : Battle)
    (h : applyFood b p food hr = .ok (msgs, b2)) :
    b2.turn = b.turn ∧ b2.action_queue = b.action_queue := by
  unfold applyFood at h
  cases hcur : (b.get_trainer p).get_current_pokemon with
  | error e => simp only [hcur] at h; cases h
  | ok pk =>
  simp only [hcur] at h
  cases hwc : (b.get_trainer p).with_current
      (fun q => q.modify_health hr) with
  | error e => simp only [hwc] at h; cases h
  | ok t1 =>
  simp only [hwc] at h
  injection h with h
  injection h with h1 h2
  subst h2
  simp [set_trainer_turn, set_trainer_queue]

/-- Helper: applying any action never changes the turn or the queue
(only `enact_turn` itself advances the turn). -/
theorem apply_preserves_turn_queue (a : Action) (env : Env) (b : Battle)
    (p : Bool) (msgs : List String) (b2 : Battle)
    (h : a.apply env b p = .ok (msgs, b2)) :
    b2.turn = b.turn ∧ b2.action_queue = b.action_queue := by
  cases a with
  | flee =>
    unfold Action.apply applyFlee at h
    injection h with h
    injection h with h1 h2
    subst h2
    simp [attempt_end_early_turn, attempt_end_early_queue]
  | switch_pokemon idx =>
    unfold Action.apply at h
    exact applySwitch_preserves _ _ _ _ _ h
  | item it =>
    cases it with
    | pokeball iid nm c =>
      unfold Action.apply at h
      exact applyPokeball_preserves _ _ _ _ _ _ _ h
    | food iid nm hr =>
      unfold Action.apply at h
      exact applyFood_preserves _ _ _ _ _ _ h
  | move m =>
    obtain ⟨mc, mk⟩ := m
    unfold Action.apply applyMove at h
    cases hcur : (Battle.get_trainer b p).get_current_pokemon with
    | error e => simp only [hcur] at h; cases h
    | ok pk =>
    simp only [hcur] at h
    cases mk with
    | attack d hc =>
      dsimp only at h
      cases hen : applyAttackEnemyEffects env b p
          { core := mc, kind := .attack d hc } d hc with
      | error e => simp only [hen] at h; cases h
      | ok res =>
      obtain ⟨em, bb2⟩ := res
      simp only [hen] at h
      cases hwc : (bb2.get_trainer p).with_current
          (fun q => q.reduce_move_count { core := mc, kind := .attack d hc }) with
      | error e => simp only [hwc] at h; cases h
      | ok t3 =>
      simp only [hwc] at h
      injection h with h
      injection h with h1 h2
      subst h2
      have hstep := applyAttack_preserves _ _ _ _ _ _ _ _ hen
      constructor
      · rw [set_trainer_turn, hstep.1]
      · rw [set_trainer_queue, hstep.2]
    | buff mo r =>
      dsimp only at h
      cases hal : applyBuffAllyEffects b p mo r with
      | error e => simp only [hal] at h; cases h
      | ok res =>
      obtain ⟨am, b1⟩ := res
      simp only [hal] at h
      cases hwc : (b1.get_trainer p).with_current
          (fun q => q.reduce_move_count { core := mc, kind := .buff mo r }) with
      | error e => simp only [hwc] at h; cases h
      | ok t3 =>
      simp only [hwc] at h
      injection h with h
      injection h with h1 h2
      subst h2
      have hstep := applyBuff_preserves _ _ _ _ _ _ hal
      constructor
      · rw [set_trainer_turn, hstep.1]
      · rw [set_trainer_queue, hstep.2]
    | debuff mo r =>
      dsimp only at h
      cases hen : applyDebuffEnemyEffects b p mo r with
      | error e => simp only [hen] at h; cases h
      | ok res =>
      obtain ⟨em, bb2⟩ := res
      simp only [hen] at h
      cases hwc : (bb2.get_trainer p).with_current
          (fun q => q.reduce_move_count { core := mc, kind := .debuff mo r }) with
      | error e => simp only [hwc] at h; cases h
      | ok t3 =>
      simp only [hwc] at h
      injection h with h
      injection h with h1 h2
      subst h2
      have hstep := applyDebuff_preserves _ _ _ _ _ _ hen
      constructor
      · rw [set_trainer_turn, hstep.1]
      · rw [set_trainer_queue, hstep.2]

/-- Helper: the modifier-expiry loop is exactly "keep the entries with
more than one round left, decrementing each by 1". -/
theorem tickLoop_eq_filter_map (l : List (PokemonStats × ℤ)) :
    tickLoop l
      = (l.filter (fun mr => 1 < mr.2)).map (fun mr => (mr.1, mr.2 - 1)) := by
  induction l with
  | nil => rfl
  | cons mr rest ih =>
    unfold tickLoop
    by_cases hm : 1 < mr.2
    · rw [if_pos hm, ih, List.filter_cons_of_pos (by simpa using hm)]
      rfl
    · rw [if_neg hm, ih, List.filter_cons_of_neg (by simpa using hm)]

/-- C2: upkeep never runs after the first resolution of a round (the
resulting state is exactly the apply-result with turn `WaitingOn` of
the opposite side), runs exactly once when the second resolution
returns the turn to `Unset` (both sides' current pokemon are passed
through `post_round_actions` exactly once), and the tick decrements
every timed modifier by exactly 1, dropping those that reach 0. -/
theorem round_upkeep_once (env : Env) (b : Battle) (a : Action) (p : Bool)
    (rest1 : List (Action × Bool)) (msgs : List String) (b2 : Battle)
    (h1 : b.sort_actions.action_queue = (a, p) :: rest1)
    (h2 : a.is_valid { b.sort_actions with action_queue := rest1 } p
            = .ok true)
    (h3 : a.apply env { b.sort_actions with action_queue := rest1 } p
            = .ok (msgs, b2)) :
    (b.turn = none →
        Battle.enact_turn env b
          = .ok (some msgs, { b2 with turn := some (!p) }))
  ∧ (∀ t0, b.turn = some t0 → ∀ pl en,
        b2.player.with_current Pokemon.post_round_actions = .ok pl →
        b2.enemy.with_current Pokemon.post_round_actions = .ok en →
        Battle.enact_turn env b
          = .ok (some msgs,
                 { b2 with turn := none, player := pl, enemy := en }))
  ∧ (∀ q : Pokemon, (Pokemon.post_round_actions q).stat_modifiers
        = (q.stat_modifiers.filter (fun mr => 1 < mr.2)).map
            (fun mr => (mr.1, mr.2 - 1))) := by
  have hne := not_empty_of_sorted_cons b (a, p) rest1 h1
  have hb2turn : b2.turn = b.turn := by
    rw [(apply_preserves_turn_queue a env _ p msgs b2 h3).1]
    exact sort_actions_turn b
  refine ⟨?_, ?_, ?_⟩
  · intro hturn
    unfold Battle.enact_turn
    rw [hne]
    simp only [Bool.false_eq_true, if_false, h1, Battle.resolve_head, h2, h3]
    have hu : b2.update_turn p = { b2 with turn := some (!p) } := by
      unfold Battle.update_turn
      rw [hb2turn, hturn]
    rw [hu]
  · intro t0 hturn pl en hpl hen
    unfold Battle.enact_turn
    rw [hne]
    simp only [Bool.false_eq_true, if_false, h1, Battle.resolve_head, h2, h3]
    have hu : b2.update_turn p = { b2 with turn := none } := by
      unfold Battle.update_turn
      rw [hb2turn, hturn]
    rw [hu]
    simp only [hpl, hen]
  · intro q
    unfold Pokemon.post_round_actions Pokemon.modify_health
    exact tickLoop_eq_filter_map q.stat_modifiers


/-- Helper: fleeing is valid for side `p` in any battle between `ash`
and `wildT` that has not ended early, when the turn permits it. -/
theorem flee_valid_ash_wild (b : Battle) (p : Bool)
    (hp : b.player = ash) (he : b.enemy = wildT)
    (hf : b.finished_early = false)
    (ht : b.turn = none ∨ b.turn = some p) :
    Action.is_valid .flee b p = .ok true := by
  have hover : b.is_over = false := by
    simp [Battle.is_over, hp, he, hf, ash_not_all_fainted,
      wildT_not_all_fainted]
  have hbase : b.base_action_valid p = true := by
    unfold Battle.base_action_valid
    rw [hover]
    rcases ht with ht | ht <;> simp [ht]
  cases p with
  | false =>
    have hcur : (b.get_trainer false).get_current_pokemon = .ok pokeB := by
      have hget : b.get_trainer false = b.enemy := rfl
      rw [hget, he]
      rfl
    simp only [Action.is_valid, hcur, hbase, pokeB_not_fainted]
    rfl
  | true =>
    have hcur : (b.get_trainer true).get_current_pokemon = .ok pokeA := by
      have hget : b.get_trainer true = b.player := rfl
      rw [hget, hp]
      rfl
    simp only [Action.is_valid, hcur, hbase, pokeA_not_fainted]
    rfl

theorem flee_valid_bFullTail :
    Action.is_valid .flee
      { bFull with action_queue := [(.flee, false)] } true = .ok true :=
  flee_valid_ash_wild _ true rfl rfl rfl (Or.inl rfl)

theorem flee_valid_bTurnEnemyTail :
    Action.is_valid .flee
      { bTurnEnemy with action_queue := [] } false = .ok true :=
  flee_valid_ash_wild _ false rfl rfl rfl (Or.inr rfl)

/-- Witness for C2 at concrete inputs.  First resolution of a round
(`bFull`, turn `Unset`): the state after `enact_turn` is exactly the
apply-result with turn `WaitingOn(enemy)` — the enemy pokemon's
1-round modifier is still there, untouched.  Second resolution
(`bTurnEnemy`, turn `WaitingOn(enemy)`): the turn reverts to `Unset`
and both current pokemon go through `post_round_actions`, which
deletes the enemy's 1-round modifier. -/
theorem round_upkeep_once_witness :
    Battle.enact_turn env0 bFull
        = .ok (some [FLEE_SUCCESS],
               { bFull with action_queue := [(.flee, false)],
                            finished_early := true, turn := some false })
  ∧ Battle.enact_turn env0 bTurnEnemy
      = .ok (some [FLEE_SUCCESS],
             { bTurnEnemy with
               action_queue := [], finished_early := true, turn := none,
               player := { name := "Ash", selected_pokemon := some 0,
                           pokemon := [pokeA.post_round_actions],
                           inventory := [] },
               enemy := { name := "", selected_pokemon := some 0,
                          pokemon := [pokeB.post_round_actions],
                          inventory := [] } })
  ∧ (pokeB.post_round_actions).stat_modifiers = [] := by
  refine ⟨?_, ?_, ?_⟩
  · exact (round_upkeep_once env0 bFull .flee true [(.flee, false)]
      [FLEE_SUCCESS]
      { bFull with action_queue := [(.flee, false)], finished_early := true }
      rfl flee_valid_bFullTail rfl).1 rfl
  · exact (round_upkeep_once env0 bTurnEnemy .flee false [] [FLEE_SUCCESS]
      { bTurnEnemy with action_queue := [], finished_early := true }
      rfl flee_valid_bTurnEnemyTail rfl).2.1 false rfl
      { name := "Ash", selected_pokemon := some 0,
        pokemon := [pokeA.post_round_actions], inventory := [] }
      { name := "", selected_pokemon := some 0,
        pokemon := [pokeB.post_round_actions], inventory := [] }
      rfl rfl
  · exact ((round_upkeep_once env0 bTurnEnemy .flee false [] [FLEE_SUCCESS]
      { bTurnEnemy with action_queue := [], finished_early := true }
      rfl flee_valid_bTurnEnemyTail rfl).2.2 pokeB).trans rfl


/- ### C7: a Pokeball in a duel -/

theorem set_trainer_trainer_battle (b : Battle) (p : Bool) (t : Trainer) :
    (b.set_trainer p t).trainer_battle = b.trainer_battle := by
  unfold Battle.set_trainer; split <;> rfl

theorem set_trainer_finished_early (b : Battle) (p : Bool) (t : Trainer) :
    (b.set_trainer p t).finished_early = b.finished_early := by
  unfold Battle.set_trainer; split <;> rfl

theorem get_trainer_set_same (b : Battle) (p : Bool) (t : Trainer) :
    (b.set_trainer p t).get_trainer p = t := by
  unfold Battle.set_trainer Battle.get_trainer
  cases p <;> rfl

theorem get_trainer_set_other (b : Battle) (p : Bool) (t : Trainer) :
    (b.set_trainer p t).get_trainer (!p) = b.get_trainer (!p) := by
  unfold Battle.set_trainer Battle.get_trainer
  cases p <;> rfl

theorem use_item_pokemon (t : Trainer) (i : Item) :
    (t.use_item i).pokemon = t.pokemon := by
  unfold Trainer.use_item
  cases hl : assocLookup t.inventory i with
  | none => simp only [hl]
  | some c =>
    simp only [hl]
    split <;> rfl

theorem add_pokemon_pokemon (t : Trainer) (p : Pokemon) :
    (t.add_pokemon p).pokemon = t.pokemon ++ [p] := by
  unfold Trainer.add_pokemon
  dsimp only
  cases t.selected_pokemon <;> rfl

theorem assocLookup_erase_self {κ β : Type} [DecidableEq κ]
    (l : List (κ × β)) (k : κ) (hnd : (l.map Prod.fst).Nodup) :
    assocLookup (assocErase l k) k = none := by
  induction l with
  | nil => rfl
  | cons kv rest ih =>
    simp only [List.map_cons, List.nodup_cons] at hnd
    unfold assocErase
    by_cases hk : kv.1 = k
    · rw [if_pos hk]
      subst hk
      cases hl : assocLookup rest kv.1 with
      | none => rfl
      | some v =>
        exact absurd (List.mem_map_of_mem Prod.fst
          (assocLookup_mem _ _ _ hl)) hnd.1
    · rw [if_neg hk]
      unfold assocLookup
      rw [if_neg hk]
      exact ih hnd.2

/-- Helper: `use_item` on a present item decrements its count,
removing the key when the count reaches 0. -/
theorem use_item_consumes (t : Trainer) (i : Item) (n : ℤ)
    (hnd : (t.inventory.map Prod.fst).Nodup)
    (hl : assocLookup t.inventory i = some n) :
    assocLookup (t.use_item i).inventory i
      = if n - 1 = 0 then none else some (n - 1) := by
  unfold Trainer.use_item
  simp only [hl]
  by_cases hz : n - 1 = 0
  · rw [if_pos hz, if_pos hz]
    exact assocLookup_erase_self _ _ hnd
  · rw [if_neg hz, if_neg hz]
    exact assocLookup_update_self _ _ _

/-- C7: in a duel, applying a Pokeball yields exactly the no-effect
message; the result does not depend on the probability primitive at
all (any two environments give the identical result); no roster, the
early-end flag and the turn are untouched; and the ball's use count
is decremented (key dropped at 0). -/
theorem pokeball_duel_no_effect (env1 env2 : Env) (b : Battle) (p : Bool)
    (iid : ℕ) (nm : String) (cc : ℚ)
    (hduel : b.trainer_battle = true) :
    Action.apply (.item (.pokeball iid nm cc)) env1 b p
        = .ok ([POKEBALL_INVALID_BATTLE_TYPE],
               b.set_trainer p
                 ((b.get_trainer p).use_item (.pokeball iid nm cc)))
  ∧ Action.apply (.item (.pokeball iid nm cc)) env1 b p
      = Action.apply (.item (.pokeball iid nm cc)) env2 b p
  ∧ (b.set_trainer p
       ((b.get_trainer p).use_item (.pokeball iid nm cc))).player.pokemon
      = b.player.pokemon
  ∧ (b.set_trainer p
       ((b.get_trainer p).use_item (.pokeball iid nm cc))).enemy.pokemon
      = b.enemy.pokemon
  ∧ (b.set_trainer p
       ((b.get_trainer p).use_item (.pokeball iid nm cc))).finished_early
      = b.finished_early
  ∧ (b.set_trainer p
       ((b.get_trainer p).use_item (.pokeball iid nm cc))).turn = b.turn
  ∧ (∀ n, ((b.get_trainer p).inventory.map Prod.fst).Nodup →
      assocLookup (b.get_trainer p).inventory (.pokeball iid nm cc)
        = some n →
      assocLookup
        ((b.get_trainer p).use_item (.pokeball iid nm cc)).inventory
        (.pokeball iid nm cc)
        = if n - 1 = 0 then none else some (n - 1)) := by
  have key : ∀ env : Env, Action.apply (.item (.pokeball iid nm cc)) env b p
      = .ok ([POKEBALL_INVALID_BATTLE_TYPE],
             b.set_trainer p
               ((b.get_trainer p).use_item (.pokeball iid nm cc))) := by
    intro env
    unfold Action.apply applyPokeball Battle.is_trainer_battle
    dsimp only
    rw [set_trainer_trainer_battle, hduel]
    rfl
  refine ⟨key env1, (key env1).trans (key env2).symm, ?_, ?_, ?_, ?_, ?_⟩
  · cases p
    · rfl
    · show ((b.get_trainer true).use_item (.pokeball iid nm cc)).pokemon
        = b.player.pokemon
      rw [use_item_pokemon]
      rfl
  · cases p
    · show ((b.get_trainer false).use_item (.pokeball iid nm cc)).pokemon
        = b.enemy.pokemon
      rw [use_item_pokemon]
      rfl
    · rfl
  · exact set_trainer_finished_early b p _
  · exact set_trainer_turn b p _
  · intro n hnd hl
    exact use_item_consumes _ _ n hnd hl

/-- Witness for C7 on the concrete duel `bDuel` with two master
balls: same outcome under the always-true and always-false rolls, and
the count drops from 2 to 1. -/
theorem pokeball_duel_no_effect_witness :
    Action.apply (.item masterBall) env0 bDuel true
        = .ok ([POKEBALL_INVALID_BATTLE_TYPE],
               bDuel.set_trainer true
                 ((bDuel.get_trainer true).use_item masterBall))
  ∧ Action.apply (.item masterBall) env0 bDuel true
      = Action.apply (.item masterBall) envFalse bDuel true
  ∧ assocLookup
      ((bDuel.get_trainer true).use_item masterBall).inventory masterBall
      = some 1 := by
  have hinv : (bDuel.get_trainer true).inventory = [(masterBall, 2)] := by
    show ashB.inventory = [(masterBall, 2)]
    simp [ashB, Trainer.add_item, Trainer.add_pokemon, mkTrainer,
      assocUpdate, assocLookup]
  have hnd : ((bDuel.get_trainer true).inventory.map Prod.fst).Nodup := by
    rw [hinv]; simp
  have hl : assocLookup (bDuel.get_trainer true).inventory masterBall
      = some 2 := by
    rw [hinv]
    simp [assocLookup]
  refine ⟨?_, ?_, ?_⟩
  · exact (pokeball_duel_no_effect env0 envFalse bDuel true 50 "Master Ball"
      (1 / 2) rfl).1
  · exact (pokeball_duel_no_effect env0 envFalse bDuel true 50 "Master Ball"
      (1 / 2) rfl).2.1
  · have h := (pokeball_duel_no_effect env0 envFalse bDuel true 50
      "Master Ball" (1 / 2) rfl).2.2.2.2.2.2 2 hnd hl
    simp only [masterBall]
    rw [h]
    norm_num


/- ### C5: a successful capture roll in a wild battle -/

theorem attempt_end_early_player (b : Battle) :
    b.attempt_end_early.player = b.player := by
  unfold Battle.attempt_end_early; split <;> rfl

theorem attempt_end_early_enemy (b : Battle) :
    b.attempt_end_early.enemy = b.enemy := by
  unfold Battle.attempt_end_early; split <;> rfl

/-- Helper: `attempt_end_early` sets the flag in a non-duel. -/
theorem attempt_end_early_sets (b : Battle) (h : b.trainer_battle = false) :
    b.attempt_end_early.finished_early = true := by
  unfold Battle.attempt_end_early
  rw [h]
  rfl

/-- C5 (amended): in a wild battle with a successful capture roll,
letting `b1` be the battle after the ball is consumed: when the
capturing side has room, the enemy's current pokemon is appended to
its roster, the caught message is produced, and the battle ends
early; when the roster is full, only the full-roster message is
produced and the roster is unchanged — but the battle STILL ends
early; in both cases one use of the ball is consumed. -/
theorem pokeball_wild_capture (env : Env) (b : Battle) (p : Bool)
    (iid : ℕ) (nm : String) (cc : ℚ) (epk : Pokemon) (b1 : Battle)
    (hwild : b.trainer_battle = false)
    (hroll : env.roll cc = true)
    (hb1 : b1 = b.set_trainer p
      ((b.get_trainer p).use_item (.pokeball iid nm cc)))
    (hcur : (b.get_trainer (!p)).get_current_pokemon = .ok epk) :
    ((b1.get_trainer p).can_add_pokemon epk = true →
        Action.apply (.item (.pokeball iid nm cc)) env b p
          = .ok ([POKEBALL_SUCCESSFUL_CATCH epk.name],
                 (b1.set_trainer p
                   ((b1.get_trainer p).add_pokemon epk)).attempt_end_early)
      ∧ ((b1.set_trainer p
            ((b1.get_trainer p).add_pokemon epk)).attempt_end_early
          ).finished_early = true
      ∧ ((b1.get_trainer p).add_pokemon epk).pokemon
          = (b.get_trainer p).pokemon ++ [epk])
  ∧ ((b1.get_trainer p).can_add_pokemon epk = false →
        Action.apply (.item (.pokeball iid nm cc)) env b p
          = .ok ([POKEBALL_FULL_TEAM epk.name], b1.attempt_end_early)
      ∧ (b1.attempt_end_early).finished_early = true
      ∧ (b1.attempt_end_early).player.pokemon = b.player.pokemon
      ∧ (b1.attempt_end_early).enemy.pokemon = b.enemy.pokemon)
  ∧ (∀ n, ((b.get_trainer p).inventory.map Prod.fst).Nodup →
        assocLookup (b.get_trainer p).inventory (.pokeball iid nm cc)
          = some n →
        assocLookup (b1.get_trainer p).inventory (.pokeball iid nm cc)
          = if n - 1 = 0 then none else some (n - 1)) := by
  subst hb1
  have htb : (b.set_trainer p ((b.get_trainer p).use_item
      (.pokeball iid nm cc))).trainer_battle = false := by
    rw [set_trainer_trainer_battle]; exact hwild
  have hcur2 : ((b.set_trainer p ((b.get_trainer p).use_item
      (.pokeball iid nm cc))).get_trainer (!p)).get_current_pokemon
      = .ok epk := by
    rw [get_trainer_set_other]; exact hcur
  refine ⟨?_, ?_, ?_⟩
  · intro hca
    refine ⟨?_, ?_, ?_⟩
    · unfold Action.apply applyPokeball Battle.is_trainer_battle
      dsimp only
      simp only [htb, Bool.false_eq_true, if_false, hcur2, hroll,
        Bool.not_true, hca, if_true]
    · refine attempt_end_early_sets _ ?_
      rw [set_trainer_trainer_battle, set_trainer_trainer_battle]
      exact hwild
    · rw [add_pokemon_pokemon, get_trainer_set_same, use_item_pokemon]
  · intro hca
    refine ⟨?_, ?_, ?_, ?_⟩
    · unfold Action.apply applyPokeball Battle.is_trainer_battle
      dsimp only
      simp only [htb, Bool.false_eq_true, if_false, hcur2, hroll,
        Bool.not_true, hca, if_true]
    · refine attempt_end_early_sets _ ?_
      rw [set_trainer_trainer_battle]
      exact hwild
    · rw [attempt_end_early_player]
      cases p
      · rfl
      · show ((b.get_trainer true).use_item (.pokeball iid nm cc)).pokemon
          = b.player.pokemon
        rw [use_item_pokemon]
        rfl
    · rw [attempt_end_early_enemy]
      cases p
      · show ((b.get_trainer false).use_item (.pokeball iid nm cc)).pokemon
          = b.enemy.pokemon
        rw [use_item_pokemon]
        rfl
      · rfl
  · intro n hnd hl
    rw [get_trainer_set_same]
    exact use_item_consumes _ _ n hnd hl

/-- Witness for C5's amended theorem on `bWildB` (room in the
roster): the wild pokemon is caught, appended to the roster, the
battle ends early, and one ball is consumed. -/
theorem pokeball_wild_capture_witness :
    Action.apply (.item masterBall) env0 bWildB true
        = .ok ([POKEBALL_SUCCESSFUL_CATCH "wildmon"],
               ((bWildB.set_trainer true
                   ((bWildB.get_trainer true).use_item masterBall)).set_trainer
                 true
                 (((bWildB.set_trainer true
                     ((bWildB.get_trainer true).use_item
                       masterBall)).get_trainer true).add_pokemon
                   pokeB)).attempt_end_early)
  ∧ (((bWildB.set_trainer true
        ((bWildB.get_trainer true).use_item masterBall)).set_trainer true
        (((bWildB.set_trainer true
            ((bWildB.get_trainer true).use_item masterBall)).get_trainer
          true).add_pokemon pokeB)).attempt_end_early).finished_early = true
  ∧ (((bWildB.set_trainer true
        ((bWildB.get_trainer true).use_item masterBall)).get_trainer
      true).add_pokemon pokeB).pokemon
      = (bWildB.get_trainer true).pokemon ++ [pokeB] := by
  have h := pokeball_wild_capture env0 bWildB true 50 "Master Ball" (1 / 2)
    pokeB
    (bWildB.set_trainer true ((bWildB.get_trainer true).use_item masterBall))
    rfl rfl rfl rfl
  have hca : ((bWildB.set_trainer true
      ((bWildB.get_trainer true).use_item masterBall)).get_trainer
      true).can_add_pokemon pokeB = true := by
    show ((bWildB.get_trainer true).use_item masterBall).can_add_pokemon
      pokeB = true
    unfold Trainer.can_add_pokemon
    rw [use_item_pokemon]
    rfl
  obtain ⟨h1, h2, h3⟩ := h.1 hca
  exact ⟨h1, h2, h3⟩


/-- C5 counterexample to the claim as stated: in the wild battle
`bWild6` whose player roster is full, a successful capture roll
produces the full-roster message and does not add the pokemon, but
the battle DOES end early (the claim says it does not). -/
theorem pokeball_full_roster_still_ends_cex :
    (Action.apply (.item masterBall) env0 bWild6 true).map
        (fun r => (r.1, r.2.finished_early, r.2.player.pokemon.length))
      = .ok ([POKEBALL_FULL_TEAM "wildmon"], true, 6) := by
  have htb : (bWild6.set_trainer true
      ((bWild6.get_trainer true).use_item masterBall)).trainer_battle
      = false := by
    rw [set_trainer_trainer_battle]
    rfl
  have hcur6 : ((bWild6.set_trainer true
      ((bWild6.get_trainer true).use_item masterBall)).get_trainer
      false).get_current_pokemon = .ok pokeB := rfl
  have hca : ((bWild6.set_trainer true
      ((bWild6.get_trainer true).use_item masterBall)).get_trainer
      true).can_add_pokemon pokeB = false := by
    show ((bWild6.get_trainer true).use_item masterBall).can_add_pokemon
      pokeB = false
    unfold Trainer.can_add_pokemon
    rw [use_item_pokemon]
    split
    · rfl
    · rfl
  have hfe : ((bWild6.set_trainer true
      ((bWild6.get_trainer true).use_item
        masterBall)).attempt_end_early).finished_early = true :=
    attempt_end_early_sets _ htb
  have hpl : ((bWild6.set_trainer true
      ((bWild6.get_trainer true).use_item
        masterBall)).attempt_end_early).player.pokemon
      = (bWild6.get_trainer true).pokemon := by
    rw [attempt_end_early_player]
    show ((bWild6.get_trainer true).use_item masterBall).pokemon = _
    rw [use_item_pokemon]
  show (applyPokeball env0 bWild6 true masterBall (1 / 2)).map
      (fun r => (r.1, r.2.finished_early, r.2.player.pokemon.length))
      = .ok ([POKEBALL_FULL_TEAM "wildmon"], true, 6)
  unfold applyPokeball Battle.is_trainer_battle
  simp only [htb, Bool.false_eq_true, if_false, Bool.not_true, hcur6, hca,
    show env0.roll (1 / 2) = true from rfl]
  simp only [Except.map, hfe, hpl]
  rfl


/- ### C4: the floating-point cube root loses levels at perfect cubes -/

/-- C4 (code bug): the Python double `1.0/3` is strictly below 1/3
(while within a half-ulp of it), and `64 ** (1.0/3)` — whose exact
real value is `64 ^ pyOneThird` — lies strictly between 3 and
`4 - 2⁻⁵²`.  Since `4 - 2⁻⁵²` is the rounding midpoint between 4 and
the largest double below 4 (they are `2⁻⁵⁰` = 4 ulps of 2⁻⁵² apart at
that binade boundary... precisely: doubles just below 4 are spaced
`2⁻⁵¹` apart, and `4 - 2⁻⁵²` is the midpoint between 4 and
`4 - 2⁻⁵¹`), any rounding of the pow computation that is correct to
half an ulp returns a double at most `4 - 2⁻⁵¹ < 4`, and `int(...)`
truncates it to 3 — as CPython's `int(64 ** (1.0/3))` indeed gives 3.
Consequently a level-3 pokemon (27 exp) gaining 37 exp (total 64, a
perfect cube) stays at level 3 under any such cube-root routine,
whereas the documented formula (`natCbrt`, greatest `k` with
`k³ ≤ n`) demands `floor(64^(1/3)) = 4`. -/
theorem gain_experience_float_cbrt_bug :
    (0 < 1 / 3 - pyOneThird ∧ 1 / 3 - pyOneThird < 1 / 2 ^ 55)
  ∧ (3 : ℝ) < (64 : ℝ) ^ ((pyOneThird : ℚ) : ℝ)
  ∧ (64 : ℝ) ^ ((pyOneThird : ℚ) : ℝ) < 4 - (2 : ℝ) ^ (-(52 : ℤ))
  ∧ (∀ cr : ℤ → ℤ, cr 64 = 3 →
      (pokeLvl3.gain_experience cr 37).level = 3
        ∧ (pokeLvl3.gain_experience cr 37).experience = 64)
  ∧ natCbrt 64 = 4 := by
  have hlog_gt := Real.log_two_gt_d9
  have hlog_lt := Real.log_two_lt_d9
  have hl0 : (0 : ℝ) ≤ Real.log 2 := Real.log_nonneg (by norm_num)
  have hsnn : (0 : ℝ) ≤ Real.log 2 / 2 ^ 53 :=
    div_nonneg hl0 (by norm_num)
  have h1s : (0 : ℝ) < 1 + Real.log 2 / 2 ^ 53 := by linarith
  have hrw : (64 : ℝ) ^ ((pyOneThird : ℚ) : ℝ)
      = 4 * Real.exp (-(Real.log 2 / 2 ^ 53)) := by
    rw [Real.rpow_def_of_pos (by norm_num : (0 : ℝ) < 64)]
    have hlog64 : Real.log 64 = 6 * Real.log 2 := by
      rw [show (64 : ℝ) = 2 ^ (6 : ℕ) by norm_num, Real.log_pow]
      push_cast
      ring
    have hx : ((pyOneThird : ℚ) : ℝ) = (2 - 1 / 2 ^ 53) / 6 := by
      rw [pyOneThird]
      push_cast
      norm_num
    rw [hlog64, hx]
    rw [show 6 * Real.log 2 * ((2 - 1 / 2 ^ 53) / 6)
        = 2 * Real.log 2 + -(Real.log 2 / 2 ^ 53) by ring]
    rw [Real.exp_add]
    congr 1
    rw [show (2 : ℝ) * Real.log 2 = Real.log (2 ^ (2 : ℕ)) by
      rw [Real.log_pow]; push_cast; ring]
    rw [Real.exp_log (by norm_num)]
    norm_num
  have hElow : 1 - Real.log 2 / 2 ^ 53
      ≤ Real.exp (-(Real.log 2 / 2 ^ 53)) := by
    have := Real.add_one_le_exp (-(Real.log 2 / 2 ^ 53))
    linarith
  have hEup : Real.exp (-(Real.log 2 / 2 ^ 53))
      ≤ (1 + Real.log 2 / 2 ^ 53)⁻¹ := by
    rw [Real.exp_neg]
    have h2 : 1 + Real.log 2 / 2 ^ 53
        ≤ Real.exp (Real.log 2 / 2 ^ 53) := by
      have := Real.add_one_le_exp (Real.log 2 / 2 ^ 53)
      linarith
    exact inv_anti₀ h1s h2
  refine ⟨⟨by norm_num [pyOneThird], by norm_num [pyOneThird]⟩, ?_, ?_,
    ?_, by decide⟩
  · rw [hrw]
    have hs_lt4 : Real.log 2 / 2 ^ 53 < 1 / 4 := by
      rw [div_lt_iff₀ (by norm_num : (0 : ℝ) < 2 ^ 53)]
      nlinarith
    linarith
  · rw [hrw]
    have hz : (2 : ℝ) ^ (-(52 : ℤ)) = 1 / 2 ^ 52 := by
      rw [zpow_neg]
      norm_num
    rw [hz]
    have hkey : 4 * (1 + Real.log 2 / 2 ^ 53)⁻¹ < 4 - 1 / 2 ^ 52 := by
      rw [show (4 : ℝ) * (1 + Real.log 2 / 2 ^ 53)⁻¹
          = 4 / (1 + Real.log 2 / 2 ^ 53) from (div_eq_mul_inv 4 _).symm]
      rw [div_lt_iff₀ h1s]
      nlinarith
    have h4E : 4 * Real.exp (-(Real.log 2 / 2 ^ 53))
        ≤ 4 * (1 + Real.log 2 / 2 ^ 53)⁻¹ := by
      nlinarith [hEup]
    linarith
  · intro cr hcr
    have hexp : pokeLvl3.experience = 27 := by
      norm_num [pokeLvl3, mkPokemon]
    unfold Pokemon.gain_experience
    dsimp only
    rw [show pokeLvl3.experience + 37 = (64 : ℤ) by rw [hexp]; norm_num, hcr]
    exact ⟨rfl, rfl⟩

/-- Witness for the cube-root bug theorem: with the routine returning
3 at 64 (the value the double computation produces), the level-3
pokemon that reaches 64 experience stays at level 3. -/
theorem gain_experience_float_cbrt_bug_witness :
    (pokeLvl3.gain_experience (fun _ => 3) 37).level = 3
  ∧ (pokeLvl3.gain_experience (fun _ => 3) 37).experience = 64 :=
  gain_experience_float_cbrt_bug.2.2.2.1 (fun _ => 3) rfl

end PokeBattle
